import Mathlib

/-!
Verification of the `threejs-cannones-rigger` scene-rigging engine.

The development shallowly embeds the rigging engine of the repository
(`ThreeJsCannonEsSceneRigger` and its constraint classes) in Lean:

* three.js / cannon-es vector and quaternion arithmetic is modelled exactly,
  over `ℚ` (the JavaScript doubles carry out the same rational formulas;
  quantities the source stores as square roots — `Vector3.distanceTo`,
  cannon's `DistanceConstraint.distance` and the cable length — are
  represented by their squares, which is a faithful renaming because
  `Real.sqrt` is injective on nonnegative arguments);
* three.js world transforms (`updateMatrixWorld`, `getWorldPosition`,
  `getWorldQuaternion`, `getWorldScale`, `localToWorld`, and the
  `Matrix4` compose / invert / decompose steps of `SyncConstraint.update`)
  are modelled at the translation–rotation–scale level, the subgroup in
  which shear-free scene graphs live;
* JavaScript dynamic values that the source reads from `userData`
  (string-or-number tags, number-or-array collision masks, possibly-absent
  names) are modelled by explicit sum / `Option` types, and JavaScript
  32-bit bitwise operators by `Nat`/`Int` arithmetic modulo `2^32`;
* object identity (JavaScript references held by `Map`s and by the physics
  world) is modelled by numeric ids drawn from a fresh counter, and scene
  nodes are identified by their path from the rigged root.
-/

namespace ThreeCannonRigger

/-! ## Vectors and quaternions (three.js / cannon-es math, over ℚ) -/

/-- three.js `Vector3`, with exact rational coordinates. -/
structure Vector3 where
  x : ℚ
  y : ℚ
  z : ℚ
deriving DecidableEq, Repr

def vzero : Vector3 := ⟨0, 0, 0⟩

instance : Add Vector3 := ⟨fun a b => ⟨a.x + b.x, a.y + b.y, a.z + b.z⟩⟩

instance : Sub Vector3 := ⟨fun a b => ⟨a.x - b.x, a.y - b.y, a.z - b.z⟩⟩

/-- Componentwise product, the action of a (diagonal) scale on a vector. -/
def vmulc (a b : Vector3) : Vector3 := ⟨a.x * b.x, a.y * b.y, a.z * b.z⟩

/-- Squared form of three.js `Vector3.distanceTo` (which returns the root). -/
def distSq (a b : Vector3) : ℚ :=
  (a.x - b.x) ^ 2 + (a.y - b.y) ^ 2 + (a.z - b.z) ^ 2

/-- three.js `Quaternion`, with exact rational components. -/
structure Quaternion where
  x : ℚ
  y : ℚ
  z : ℚ
  w : ℚ
deriving DecidableEq, Repr

/-- The identity quaternion `new Quaternion()`. -/
def qid : Quaternion := ⟨0, 0, 0, 1⟩

/-- The zero quaternion, produced by the scratch reset `rot.set(0,0,0,0)`. -/
def qzero : Quaternion := ⟨0, 0, 0, 0⟩

/-- three.js `Quaternion.multiply` / `multiplyQuaternions a b` (Hamilton product). -/
def qmul (a b : Quaternion) : Quaternion :=
  ⟨a.x * b.w + a.w * b.x + a.y * b.z - a.z * b.y,
   a.y * b.w + a.w * b.y + a.z * b.x - a.x * b.z,
   a.z * b.w + a.w * b.z + a.x * b.y - a.y * b.x,
   a.w * b.w - a.x * b.x - a.y * b.y - a.z * b.z⟩

/-- three.js `Quaternion.invert` (which is conjugation — unit length assumed
by three.js). -/
def qconj (q : Quaternion) : Quaternion := ⟨-q.x, -q.y, -q.z, q.w⟩

def normSq (q : Quaternion) : ℚ := q.x ^ 2 + q.y ^ 2 + q.z ^ 2 + q.w ^ 2

/-- three.js `Vector3.applyQuaternion` — the exact polynomial formula of the
source (`t = 2·(q.xyz × v); v + q.w·t + q.xyz × t`). -/
def applyQuaternion (q : Quaternion) (v : Vector3) : Vector3 :=
  let tx := 2 * (q.y * v.z - q.z * v.y)
  let ty := 2 * (q.z * v.x - q.x * v.z)
  let tz := 2 * (q.x * v.y - q.y * v.x)
  ⟨v.x + q.w * tx + q.y * tz - q.z * ty,
   v.y + q.w * ty + q.z * tx - q.x * tz,
   v.z + q.w * tz + q.x * ty - q.y * tx⟩

/-- cannon-es `Quaternion.vmult`: the full sandwich product `q·(v,0)·q*`. -/
def vmult (q : Quaternion) (v : Vector3) : Vector3 :=
  let ix := q.w * v.x + q.y * v.z - q.z * v.y
  let iy := q.w * v.y + q.z * v.x - q.x * v.z
  let iz := q.w * v.z + q.x * v.y - q.y * v.x
  let iw := -q.x * v.x - q.y * v.y - q.z * v.z
  ⟨ix * q.w + iw * (-q.x) + iy * (-q.z) - iz * (-q.y),
   iy * q.w + iw * (-q.y) + iz * (-q.x) - ix * (-q.z),
   iz * q.w + iw * (-q.z) + ix * (-q.y) - iy * (-q.x)⟩

/-! ## World transforms

three.js keeps `position`/`quaternion`/`scale` per node and composes
`matrixWorld = parent.matrixWorld * T·R·S`.  For shear-free hierarchies that
product stays in the translation–rotation–scale subgroup, where
`getWorldPosition` / `getWorldQuaternion` / `getWorldScale` read off the three
components; we model the composition directly on TRS triples. -/

/-- A translation–rotation–scale world transform. -/
structure TRS where
  pos : Vector3
  quat : Quaternion
  scale : Vector3
deriving DecidableEq, Repr

/-- The identity transform (the world frame of an unparented root). -/
def idTRS : TRS := ⟨vzero, qid, ⟨1, 1, 1⟩⟩

/-- Compose a parent world transform with a child's local
position/quaternion/scale (the `matrixWorld` recurrence on TRS triples). -/
def composeLocal (p : TRS) (lp : Vector3) (lq : Quaternion) (ls : Vector3) : TRS :=
  { pos := p.pos + applyQuaternion p.quat (vmulc p.scale lp)
    quat := qmul p.quat lq
    scale := vmulc p.scale ls }

/-- The affine action of a world matrix on a point — three.js
`Object3D.localToWorld` applied in the frame described by `t`. -/
def applyTRS (t : TRS) (v : Vector3) : Vector3 :=
  t.pos + applyQuaternion t.quat (vmulc t.scale v)

/-! ## JavaScript dynamic values and 32-bit bit operations -/

/-- A `userData` tag value: the Blender exporter produces either a symbolic
string (Blender 5+) or an already-resolved enum number. -/
inductive TagVal where
  | str (s : String)
  | num (n : Int)
deriving DecidableEq, Repr

/-- A collision group/mask annotation: either an integer bitmask or an array
of numbers (one flag per bit position). -/
inductive NumOrArr where
  | num (n : Int)
  | arr (l : List Int)
deriving DecidableEq, Repr

/-- JavaScript truthiness of a number-or-array value (`if (x)`): a number is
truthy iff nonzero; an array object is always truthy. -/
def truthy : Option NumOrArr → Bool
  | none => false
  | some (.num n) => n != 0
  | some (.arr _) => true

/-- JavaScript `ToUint32` (`4294967296 = 2^32`, kept as a numeral so kernel
evaluation stays cheap). -/
def toUint32 (n : Int) : Nat := (n % 4294967296).toNat

/-- JavaScript `ToInt32` (`2147483648 = 2^31`). -/
def toInt32 (n : Int) : Int :=
  if toUint32 n < 2147483648 then (toUint32 n : Int) else (toUint32 n : Int) - 4294967296

/-- JavaScript 32-bit `a | b`. -/
def jsOr (a b : Int) : Int := toInt32 ((toUint32 a ||| toUint32 b : Nat) : Int)

/-- JavaScript 32-bit `a << b` (shift count taken mod 32). -/
def jsShl (a b : Int) : Int := toInt32 ((toUint32 a <<< (toUint32 b % 32) : Nat) : Int)

/-! ## Metadata normalization (`TypeAsString`, `arrayToBitmask`) -/

/-- The `TypeAsString` table; JavaScript property lookup of an unknown key
yields `undefined` (`none`). -/
def TypeAsString (s : String) : Option Int :=
  if s = "x" then some 0
  else if s = "box" then some 1
  else if s = "sphere" then some 2
  else if s = "compound" then some 3
  else if s = "lock" then some 4
  else if s = "hinge" then some 5
  else if s = "point" then some 6
  else if s = "dist" then some 7
  else if s = "sync" then some 8
  else if s = "tube" then some 9
  else if s = "custom" then some 10
  else none

/-- The tag-normalization step of `rigScene`:
`if (typeof t == "string") t = TypeAsString[t]` — numbers (and absence) pass
through unchanged, unrecognized strings become `undefined`. -/
def normalizeTypeVal : Option TagVal → Option TagVal
  | some (.str s) => (TypeAsString s).map .num
  | v => v

/-- The numeric value of a (normalized) tag as used by the `==`/`switch`
dispatch; a string never equals an enum number there. -/
def tagNum : Option TagVal → Option Int
  | some (.num n) => some n
  | _ => none

/-- The `reduce((mask, bit, idx) => mask | (bit << idx), 0)` of
`arrayToBitmask`. -/
def bitmaskOfList (l : List Int) : Int :=
  l.enum.foldl (fun mask p => jsOr mask (jsShl p.2 p.1)) 0

/-- `arrayToBitmask(flags, flagsArray)`: a numeric first argument is replaced
by `flagsArray ?? []`; an empty list returns 0; otherwise the indexed
`reduce` above (which also returns 0 on `[]`, so the early return folds in). -/
def arrayToBitmask (flags : NumOrArr) (flagsArray : Option (List Int)) : Int :=
  match flags with
  | .num _ => bitmaskOfList (flagsArray.getD [])
  | .arr l => bitmaskOfList l

/-- The group/mask normalization step of `rigScene`:
`if (ud.cgroup) ud.cgroup = arrayToBitmask(ud.cgroup, ud.cgroup_array)`. -/
def normalizeGroupVal (g : Option NumOrArr) (garr : Option (List Int)) : Option NumOrArr :=
  if truthy g then
    match g with
    | some v => some (.num (arrayToBitmask v garr))
    | none => g
  else g

/-! ## The scene graph -/

/-- The `userData` annotation record read by the rigger.  Cross-reference
fields store the value of `userData.threejscannones_A?.name` etc. directly
(`none` when the reference object or its `name` is absent). -/
structure UserData where
  name : Option String := none
  threejscannones_type : Option TagVal := none
  threejscannones_cgroup : Option NumOrArr := none
  threejscannones_cgroup_array : Option (List Int) := none
  threejscannones_cwith : Option NumOrArr := none
  threejscannones_cwith_array : Option (List Int) := none
  threejscannones_mass : Option ℚ := none
  threejscannones_A : Option String := none
  threejscannones_B : Option String := none
  threejscannones_syncSource : Option String := none
  threejscannones_customId : Option String := none
deriving DecidableEq, Repr

/-- A three.js `Object3D`: display name, annotations, local TRS, visibility
and ordered children.  A node's identity (the JavaScript object reference)
is represented by its child-index path from the rigged root. -/
inductive Object3D where
  | mk (name : String) (userData : UserData) (position : Vector3)
       (quaternion : Quaternion) (scale : Vector3) (visible : Bool)
       (children : List Object3D)

def Object3D.name : Object3D → String
  | .mk n _ _ _ _ _ _ => n

def Object3D.userData : Object3D → UserData
  | .mk _ ud _ _ _ _ _ => ud

def Object3D.position : Object3D → Vector3
  | .mk _ _ p _ _ _ _ => p

def Object3D.quaternion : Object3D → Quaternion
  | .mk _ _ _ q _ _ _ => q

def Object3D.scale : Object3D → Vector3
  | .mk _ _ _ _ s _ _ => s

def Object3D.visible : Object3D → Bool
  | .mk _ _ _ _ _ v _ => v

def Object3D.children : Object3D → List Object3D
  | .mk _ _ _ _ _ _ ch => ch

/-- The world transform of a node, given its parent's world transform. -/
def worldOf (parent : TRS) (o : Object3D) : TRS :=
  composeLocal parent o.position o.quaternion o.scale

/-- Node lookup by child-index path (`[]` is the node itself). -/
def getNode : Object3D → List Nat → Option Object3D
  | o, [] => some o
  | o, i :: p =>
    match o.children.get? i with
    | some c => getNode c p
    | none => none

/-- The world transform of the node at `path`, composed through the full
ancestor chain starting from the root's parent transform `ctx`. -/
def worldTRSAt (ctx : TRS) : Object3D → List Nat → Option TRS
  | o, [] => some (worldOf ctx o)
  | o, i :: p =>
    match o.children.get? i with
    | some c => worldTRSAt (worldOf ctx o) c p
    | none => none

/-! ## The cannon-es world -/

/-- A cannon-es collision shape as created by the rigger. -/
inductive CShape where
  | box (halfExtents : Vector3)
  | sphere (radius : ℚ)
deriving DecidableEq, Repr

/-- A shape attached to a body at a local offset/orientation
(`Body.addShape(shape, offset, orientation)`; defaults are zero/identity). -/
structure ShapeInst where
  shape : CShape
  offset : Vector3 := vzero
  orientation : Quaternion := qid
deriving DecidableEq, Repr

/-- A cannon-es `Body`.  `id` models the JavaScript object reference. -/
structure Body where
  id : Nat
  mass : ℚ := 0
  position : Vector3 := vzero
  quaternion : Quaternion := qid
  shapes : List ShapeInst := []
  collisionFilterGroup : NumOrArr := .num 1
  collisionFilterMask : NumOrArr := .num 1
deriving DecidableEq, Repr

/-- cannon-es `Body.pointToLocalFrame`: `conj(q) ⊛ (p − position)`. -/
def pointToLocalFrame (b : Body) (p : Vector3) : Vector3 :=
  vmult (qconj b.quaternion) (p - b.position)

/-- cannon-es `Body.vectorToLocalFrame`: `conj(q) ⊛ v`. -/
def vectorToLocalFrame (b : Body) (v : Vector3) : Vector3 :=
  vmult (qconj b.quaternion) v

/-- The joint kinds the rigger instantiates. -/
inductive CKind where
  | lock
  | hinge
  | pointToPoint
  | distance
deriving DecidableEq, Repr

/-- An engine-native constraint record (`id` models the object reference;
bodies are referenced by id; `distanceSq` is the square of cannon's
`DistanceConstraint.distance`). -/
structure CCon where
  id : Nat
  kind : CKind
  bodyA : Nat
  bodyB : Nat
  collideConnected : Bool := true
  pivotA : Vector3 := vzero
  pivotB : Vector3 := vzero
  axisA : Vector3 := vzero
  axisB : Vector3 := vzero
  distanceSq : ℚ := 0
deriving DecidableEq, Repr

/-- The cannon-es `World` as observed by the rigger: its body list and its
constraint list, in registration order. -/
structure World where
  bodies : List Body := []
  constraints : List CCon := []
deriving DecidableEq, Repr

/-- Remove the first element satisfying `p` (cannon's splice-by-indexOf). -/
def removeFirst (p : α → Bool) : List α → List α
  | [] => []
  | a :: rest => if p a then rest else a :: removeFirst p rest

def World.addBody (w : World) (b : Body) : World :=
  { w with bodies := w.bodies ++ [b] }

def World.removeBodyId (w : World) (i : Nat) : World :=
  { w with bodies := removeFirst (fun b => b.id == i) w.bodies }

def World.addConstraint (w : World) (c : CCon) : World :=
  { w with constraints := w.constraints ++ [c] }

def World.removeConstraintId (w : World) (i : Nat) : World :=
  { w with constraints := removeFirst (fun c => c.id == i) w.constraints }

/-! ## The cable-rig collaborator -/

/-- Modelled from the spec: `CannonTubeRig` (package `threejs-cannones-tube`,
not part of this repository) is "a flexible multi-body chain between two
anchors": a chain of bodies joined by point-to-point constraints, registered
into the physics world by `addToPhysicalWorld` and removed again by
`removeFromPhysicalWorld`; it exposes `head` and `tail` bodies and a visual
`syncRig` resync that does not touch the physics world.  `lengthSq` is the
square of the constructor's world-unit length; `position`/`lookTarget` record
the placement the rigger assigns (`tube.position.copy(vec); tube.lookAt(vec2)`). -/
structure CannonTubeRig where
  lengthSq : ℚ
  lengthResolution : Nat
  radius : ℚ
  radialResolution : Nat
  position : Vector3 := vzero
  lookTarget : Option Vector3 := none
  bodies : List Body := []
  constraints : List CCon := []
deriving DecidableEq, Repr

def dBody : Body := { id := 0 }

/-- Modelled from the spec: building a `CannonTubeRig` allocates its internal
chain — one body per length-resolution step and a point-to-point joint
between consecutive bodies — with fresh ids from `startId`. -/
def mkCannonTubeRig (lengthSq : ℚ) (res : Nat) (radius : ℚ) (radialRes : Nat)
    (startId : Nat) : CannonTubeRig × Nat :=
  ({ lengthSq := lengthSq
     lengthResolution := res
     radius := radius
     radialResolution := radialRes
     bodies := (List.range res).map fun i => { dBody with id := startId + i }
     constraints := (List.range (res - 1)).map fun i =>
       { id := startId + res + i
         kind := .pointToPoint
         bodyA := startId + i
         bodyB := startId + i + 1 } },
   startId + res + (res - 1))

def CannonTubeRig.head (t : CannonTubeRig) : Body := t.bodies.getD 0 dBody

def CannonTubeRig.tail (t : CannonTubeRig) : Body := t.bodies.getLastD dBody

/-- Modelled from the spec: `addToPhysicalWorld` registers the rig's own
chain of bodies and joints with the world. -/
def CannonTubeRig.addToPhysicalWorld (t : CannonTubeRig) (w : World) : World :=
  { w with bodies := w.bodies ++ t.bodies, constraints := w.constraints ++ t.constraints }

/-- Modelled from the spec: `removeFromPhysicalWorld` removes exactly the
registrations `addToPhysicalWorld` made. -/
def CannonTubeRig.removeFromPhysicalWorld (t : CannonTubeRig) (w : World) : World :=
  let w1 := t.constraints.foldl (fun acc c => acc.removeConstraintId c.id) w
  t.bodies.foldl (fun acc b => acc.removeBodyId b.id) w1

/-! ## The rig session -/

/-- The node→body index entry: the keying object reference is represented by
the node's path; `name` caches `userData.name`, the only field the map's one
reader `getBodyByName` consults. -/
structure Obj2BodEntry where
  path : List Nat
  name : Option String
  body : Body
deriving DecidableEq, Repr

/-- The mutable per-link state of a `SyncConstraint`. -/
structure SyncState where
  offsetPos : Vector3 := vzero
  offsetQuat : Quaternion := qid
  hasInit : Bool := false
deriving DecidableEq, Repr

/-- A host-supplied custom constraint instance (the `IConstraint` the factory
returns); `tag` models the object reference so that reference identity is
value identity. -/
structure IConstraint where
  tag : Nat
deriving DecidableEq, Repr

/-- The `CustomContraintConfig` handed to a registered factory. -/
structure CustomContraintConfig where
  obj : Object3D
  collisionGroup : NumOrArr
  collisionMask : NumOrArr
  A : Option Body := none
  B : Option Body := none

/-- `ConstraintFactory`. -/
def ConstraintFactory := CustomContraintConfig → IConstraint

/-- An entry of the session's `constraints` list
(`ThreeJsCannonEsConstraint` and its subclasses). -/
inductive RigConstraint where
  /-- A `ThreeJsCannonEsConstraint` wrapping an engine-native joint. -/
  | joint (objPath : List Nat) (name : Option String) (cannonConstraint : CCon)
  /-- A `SyncConstraint` holding the driving body and its offset cache. -/
  | sync (objPath : List Nat) (name : Option String) (body : Body) (state : SyncState)
  /-- A `CableConstraint` holding the tube rig and its head/tail locks. -/
  | cable (objPath : List Nat) (name : Option String) (tube : CannonTubeRig)
          (lockToA lockToB : Option CCon)
deriving DecidableEq, Repr

/-- `ThreeJsCannonEsConstraint.removeFrom` and its overrides: a plain joint
removes its engine constraint; a sync link holds none; a cable removes its
head/tail locks, then its tube's registrations (its base class holds no
engine constraint). -/
def RigConstraint.removeFrom : RigConstraint → World → World
  | .joint _ _ c, w => w.removeConstraintId c.id
  | .sync _ _ _ _, w => w
  | .cable _ _ tube la lb, w =>
    let w1 := match la with
      | some c => w.removeConstraintId c.id
      | none => w
    let w2 := match lb with
      | some c => w1.removeConstraintId c.id
      | none => w1
    tube.removeFromPhysicalWorld w2

/-- The state of a `ThreeJsCannonEsSceneRigger` plus the module-level scratch
vectors (`vec`, `vec2`, `rot`, `rot2`) the file shares across calls.
`nextId` is the fresh-reference counter. -/
structure RigState where
  world : World
  obj2bod : List Obj2BodEntry := []
  constraints : List RigConstraint := []
  customId2ConstraintFactory : List (String × ConstraintFactory) := []
  customConstraints : List (Option String × IConstraint) := []
  warnings : List String := []
  nextId : Nat := 0
  vec : Vector3 := vzero
  vec2 : Vector3 := vzero
  rot : Quaternion := qid
  rot2 : Quaternion := qid

/-- JavaScript `Map.set`: overwrite in place if the key exists, else append. -/
def mapSet (k : κ) (v : α) [DecidableEq κ] : List (κ × α) → List (κ × α)
  | [] => [(k, v)]
  | e :: rest => if e.1 = k then (k, v) :: rest else e :: mapSet k v rest

/-- JavaScript `Map.get`. -/
def mapGet (k : κ) [DecidableEq κ] : List (κ × α) → Option α
  | [] => none
  | e :: rest => if e.1 = k then some e.2 else mapGet k rest

/-- `registerCustomConstraint(id, creator)`. -/
def registerCustomConstraint (st : RigState) (id : String) (creator : ConstraintFactory) :
    RigState :=
  { st with customId2ConstraintFactory := mapSet id creator st.customId2ConstraintFactory }

/-- `getCustomConstraint(name)`. -/
def getCustomConstraint (st : RigState) (name : String) : Option IConstraint :=
  mapGet (some name) st.customConstraints

/-- `getBodyByName(name)`: iterate the node→body index in insertion order and
return the first body whose node's `userData.name` is `===` the argument
(`undefined === undefined` holds, so two absent names match). -/
def getBodyByName (st : RigState) (name : Option String) : Option Body :=
  go st.obj2bod
where
  go : List Obj2BodEntry → Option Body
    | [] => none
    | e :: rest => if e.name = name then some e.body else go rest

/-! ## Normalization and body building (pass 1 pieces) -/

/-- The metadata-normalization prefix of the pass-1 visitor: tag string→enum
conversion and group/mask bitmask resolution, mutated back into `userData`. -/
def normalizeUserData (ud : UserData) : UserData :=
  { ud with
    threejscannones_type := normalizeTypeVal ud.threejscannones_type
    threejscannones_cgroup :=
      normalizeGroupVal ud.threejscannones_cgroup ud.threejscannones_cgroup_array
    threejscannones_cwith :=
      normalizeGroupVal ud.threejscannones_cwith ud.threejscannones_cwith_array }

/-- `createCollider(shape, o)` for the node at `path` whose world transform is
`w` and whose (normalized) annotations are `ud`: build the body at the node's
world position/orientation, register it with the world and record the
node→body association.  (The `o.visible = false` side effect lives in the
traversal, which rebuilds the node.) -/
def createCollider (st : RigState) (shape : Option CShape) (w : TRS) (ud : UserData)
    (path : List Nat) : Body × RigState :=
  let group := ud.threejscannones_cgroup.getD (.num 1)
  let mask := ud.threejscannones_cwith.getD (.num 1)
  let body : Body :=
    { id := st.nextId
      mass := ud.threejscannones_mass.getD 0
      shapes := match shape with
        | some s => [{ shape := s }]
        | none => []
      collisionFilterGroup := group
      collisionFilterMask := mask
      position := w.pos
      quaternion := w.quat }
  (body,
   { st with
     world := st.world.addBody body
     obj2bod := st.obj2bod ++ [{ path := path, name := ud.name, body := body }]
     nextId := st.nextId + 1 })

/-- `addCompoundShapes(body, compound)` as a transformation of the body: one
box sub-shape per direct child, sized by the child's world scale and placed
at the child's offset/orientation relative to the compound's world frame;
finally the body's pose is (re)set to the compound's world pose. -/
def addCompoundShapes (w : TRS) (children : List Object3D) (b : Body) : Body :=
  let compoundWorldPos := w.pos
  let compoundWorldQuat := w.quat
  let invCompoundQuat := qconj compoundWorldQuat
  let newShapes := children.map fun mesh =>
    let cw := worldOf w mesh
    let localOffset := applyQuaternion invCompoundQuat (cw.pos - compoundWorldPos)
    let localQuat := qmul invCompoundQuat cw.quat
    ({ shape := .box cw.scale, offset := localOffset, orientation := localQuat } : ShapeInst)
  { b with
    shapes := b.shapes ++ newShapes
    position := compoundWorldPos
    quaternion := compoundWorldQuat }

/-- The source mutates the freshly registered body in place; the world's body
list and the node→body index alias the same object, so both are updated. -/
def addCompoundShapesInState (st : RigState) (bid : Nat) (w : TRS)
    (children : List Object3D) : RigState :=
  { st with
    world := { st.world with
      bodies := st.world.bodies.map fun b => if b.id = bid then addCompoundShapes w children b else b }
    obj2bod := st.obj2bod.map fun e =>
      if e.body.id = bid then { e with body := addCompoundShapes w children e.body } else e }

/-! ## Constraint factories (pass 2 pieces) -/

def addConstraintIn (st : RigState) (c : CCon) : CCon × RigState :=
  (c, { st with world := st.world.addConstraint c, nextId := st.nextId + 1 })

/-- `createDistanceConstraint(a, b)`; cannon defaults the rest length to the
bodies' current distance (stored squared here). -/
def createDistanceConstraint (st : RigState) (a b : Body) : CCon × RigState :=
  addConstraintIn st
    { id := st.nextId, kind := .distance, bodyA := a.id, bodyB := b.id
      distanceSq := distSq a.position b.position }

/-- `createPointConstraint(a, b, o)`: pivot = the node's world position in
each body's local frame. -/
def createPointConstraint (st : RigState) (a b : Body) (w : TRS) : CCon × RigState :=
  let pos := w.pos
  addConstraintIn st
    { id := st.nextId, kind := .pointToPoint, bodyA := a.id, bodyB := b.id
      pivotA := pointToLocalFrame a pos, pivotB := pointToLocalFrame b pos }

/-- `createHingeConstraint(a, b, o)`: pivot = node world position, axis =
node-local (0,1,0) in world space.  The source's `.normalize()` on the axis
is omitted: it is the identity for the unit quaternions of a valid scene and
its square root leaves the rational model. -/
def createHingeConstraint (st : RigState) (a b : Body) (w : TRS) : CCon × RigState :=
  let pos := w.pos
  let worldAxis := applyQuaternion w.quat ⟨0, 1, 0⟩
  addConstraintIn st
    { id := st.nextId, kind := .hinge, bodyA := a.id, bodyB := b.id
      pivotA := pointToLocalFrame a pos, pivotB := pointToLocalFrame b pos
      axisA := vectorToLocalFrame a worldAxis, axisB := vectorToLocalFrame b worldAxis
      collideConnected := false }

/-- `createLockConstraint(a, b)` with `collideConnected = false`. -/
def createLockConstraint (st : RigState) (a b : Body) : CCon × RigState :=
  addConstraintIn st
    { id := st.nextId, kind := .lock, bodyA := a.id, bodyB := b.id
      collideConnected := false }

/-- `createSyncBetween(obj, body)`: warn and skip when the source body is
unresolved, else track a fresh `SyncConstraint`. -/
def createSyncBetween (st : RigState) (path : List Nat) (o : Object3D)
    (body : Option Body) : RigState :=
  match body with
  | none =>
    { st with warnings := st.warnings ++
        ["Object " ++ o.name ++ " points to a non existent collider for its sync constrain."] }
  | some b =>
    { st with constraints := st.constraints ++ [.sync path o.userData.name b {}] }

/-- `CableConstraint.lockXTo(old, X, target)` at construction time (`old` is
still undefined): a point-to-point joint from the chain end `x` to `target`,
pivoted at `x`'s current position, collision disabled. -/
def lockXTo (st : RigState) (x : Body) (target : Option Body) : Option CCon × RigState :=
  match target with
  | none => (none, st)
  | some t =>
    let c : CCon :=
      { id := st.nextId, kind := .pointToPoint, bodyA := x.id, bodyB := t.id
        pivotA := vzero, pivotB := pointToLocalFrame t x.position
        collideConnected := false }
    (some c, { st with world := st.world.addConstraint c, nextId := st.nextId + 1 })

/-- `createCable(obj, stickToA, stickToB)`.  Note the source's use of the
module-level scratch registers: `vec` receives `children[0].getWorldPosition`
but `vec2` receives `children[1].localToWorld(vec2)` — the world-matrix
action applied to whatever `vec2` held from the previous call.  The visual
tube is not re-inserted into the scene here (it carries no physics
annotations, so traversing it is a no-op). -/
def createCable (st : RigState) (nodeW : TRS) (path : List Nat) (o : Object3D)
    (stickToA stickToB : Option Body) : RigState :=
  let res :=
    match o.children with
    | c0 :: c1 :: _ =>
      let v := (worldOf nodeW c0).pos
      let v2 := applyTRS (worldOf nodeW c1) st.vec2
      (v, v2, distSq v v2, true)
    | _ => (st.vec, st.vec2, (1 : ℚ), false)
  let (tube0, nid) := mkCannonTubeRig res.2.2.1 20 (1 / 10) 8 st.nextId
  let tube := if res.2.2.2 then { tube0 with position := res.1, lookTarget := some res.2.1 }
              else tube0
  let st1 := { st with vec := res.1, vec2 := res.2.1, nextId := nid
                       world := tube.addToPhysicalWorld st.world }
  let (la, st2) :=
    match stickToA with
    | some t => lockXTo st1 tube.head (some t)
    | none => (none, st1)
  let (lb, st3) :=
    match stickToB with
    | some t => lockXTo st2 tube.tail (some t)
    | none => (none, st2)
  { st3 with constraints := st3.constraints ++ [.cable path o.userData.name tube la lb] }

/-- `createCustomConstraint(obj, A, B)`: throws (JavaScript falsy check, so
an absent or empty identifier) when no id is present, throws when no factory
is registered for the id, else stores the factory's return value keyed by
the node's `userData.name`. -/
def createCustomConstraint (st : RigState) (o : Object3D) (A B : Option Body) :
    Except String RigState :=
  let ud := o.userData
  let group := ud.threejscannones_cgroup.getD (.num 1)
  let mask := ud.threejscannones_cwith.getD (.num 1)
  match ud.threejscannones_customId with
  | none => .error "A custom constraint MUST have an id..."
  | some customID =>
    if customID = "" then .error "A custom constraint MUST have an id..."
    else
      match mapGet customID st.customId2ConstraintFactory with
      | none => .error ("Custom constraint with id " ++ customID ++
          " not found. Dis you forgot to call registerCustomConstraint?")
      | some create =>
        let c := create { obj := o, collisionGroup := group, collisionMask := mask, A := A, B := B }
        .ok { st with customConstraints := mapSet ud.name c st.customConstraints }

/-! ## The two traversal passes and the public session operations -/

mutual
/-- Pass 1 visitor: normalize the node's metadata, build a body if the tag is
a collider kind (hiding the node), then recurse into the children; returns
the mutated subtree and state. -/
def rigPass1 (ctx : TRS) (path : List Nat) (st : RigState) :
    Object3D → Object3D × RigState
  | .mk nm ud pos q scl vis ch =>
    let ud1 := normalizeUserData ud
    let w := composeLocal ctx pos q scl
    let t := tagNum ud1.threejscannones_type
    let (vis1, st1) :=
      if t = some 1 then
        (false, (createCollider st (some (.box ⟨scl.x, scl.y, scl.z⟩)) w ud1 path).2)
      else if t = some 2 then
        (false, (createCollider st (some (.sphere scl.x)) w ud1 path).2)
      else if t = some 3 then
        let (b, st') := createCollider st none w ud1 path
        (false, addCompoundShapesInState st' b.id w ch)
      else (vis, st)
    let (ch', st2) := rigPass1List w path 0 st1 ch
    (.mk nm ud1 pos q scl vis1 ch', st2)

def rigPass1List (ctx : TRS) (path : List Nat) (i : Nat) (st : RigState) :
    List Object3D → List Object3D × RigState
  | [] => ([], st)
  | c :: rest =>
    let (c', st1) := rigPass1 ctx (path ++ [i]) st c
    let (rest', st2) := rigPass1List ctx path (i + 1) st1 rest
    (c' :: rest', st2)
end

/-- The pass-2 visitor body: resolve the A/B/sync-source references by name,
then dispatch on the (already normalized) tag. -/
def pass2Step (ctx : TRS) (path : List Nat) (o : Object3D) (st : RigState) :
    Except String RigState :=
  let ud := o.userData
  let A := getBodyByName st ud.threejscannones_A
  let B := getBodyByName st ud.threejscannones_B
  let nodeW := worldOf ctx o
  match tagNum ud.threejscannones_type with
  | some 7 =>
    match A, B with
    | some a, some b =>
      let (c, st1) := createDistanceConstraint st a b
      .ok { st1 with constraints := st1.constraints ++ [.joint path ud.name c] }
    | _, _ => .error "TypeError: cannot read properties of undefined"
  | some 6 =>
    match A, B with
    | some a, some b =>
      let (c, st1) := createPointConstraint st a b nodeW
      .ok { st1 with constraints := st1.constraints ++ [.joint path ud.name c] }
    | _, _ => .error "TypeError: cannot read properties of undefined"
  | some 5 =>
    match A, B with
    | some a, some b =>
      let (c, st1) := createHingeConstraint st a b nodeW
      .ok { st1 with constraints := st1.constraints ++ [.joint path ud.name c] }
    | _, _ => .error "TypeError: cannot read properties of undefined"
  | some 4 =>
    match A, B with
    | some a, some b =>
      let (c, st1) := createLockConstraint st a b
      .ok { st1 with constraints := st1.constraints ++ [.joint path ud.name c] }
    | _, _ => .error "TypeError: cannot read properties of undefined"
  | some 8 =>
    let source := getBodyByName st ud.threejscannones_syncSource
    .ok (createSyncBetween st path o source)
  | some 9 => .ok (createCable st nodeW path o A B)
  | some 10 => createCustomConstraint st o A B
  | _ => .ok st

mutual
/-- Pass 2 traversal; a thrown error aborts the whole pass. -/
def rigPass2 (ctx : TRS) (path : List Nat) (st : RigState) :
    Object3D → Except String RigState
  | .mk nm ud pos q scl vis ch =>
    match pass2Step ctx path (.mk nm ud pos q scl vis ch) st with
    | .error e => .error e
    | .ok st1 => rigPass2List (composeLocal ctx pos q scl) path 0 st1 ch

def rigPass2List (ctx : TRS) (path : List Nat) (i : Nat) (st : RigState) :
    List Object3D → Except String RigState
  | [] => .ok st
  | c :: rest =>
    match rigPass2 ctx (path ++ [i]) st c with
    | .error e => .error e
    | .ok st1 => rigPass2List ctx path (i + 1) st1 rest
end

/-- `rigScene(scene)`: pass 1 over the whole subtree, then pass 2.  `ctx` is
the world transform of the rigged root's parent (identity for an unparented
root). -/
def rigScene (ctx : TRS) (st : RigState) (scene : Object3D) :
    Except String (Object3D × RigState) :=
  let p1 := rigPass1 ctx [] st scene
  match rigPass2 ctx [] p1.2 p1.1 with
  | .error e => .error e
  | .ok st2 => .ok (p1.1, st2)

/-- `clear()`: reset the scratch registers, pop and `removeFrom` every
tracked constraint (reverse creation order), remove every indexed body, and
empty the node→body index. -/
def clear (st : RigState) : RigState :=
  let w1 := st.constraints.reverse.foldl (fun w c => c.removeFrom w) st.world
  let w2 := st.obj2bod.foldl (fun w e => w.removeBodyId e.body.id) w1
  { st with
    world := w2
    constraints := []
    obj2bod := []
    vec := vzero
    vec2 := vzero
    rot := qzero
    rot2 := qzero }

/-! ## The sync link (`SyncConstraint`) -/

/-- A rigid world pose (position and orientation). -/
structure PoseRT where
  pos : Vector3
  quat : Quaternion
deriving DecidableEq, Repr

/-- `getWorldPosition`/`getWorldQuaternion` of a node from its parent's world
pose and its own local pose (the parent's world scale is 1 in this model,
matching the shear-free TRS embedding of the `Matrix4` arithmetic). -/
def worldOfLocal (parent : Option PoseRT) (lp : Vector3) (lq : Quaternion) : PoseRT :=
  match parent with
  | some p => ⟨p.pos + applyQuaternion p.quat lp, qmul p.quat lq⟩
  | none => ⟨lp, lq⟩

/-- `SyncConstraint.initOffsets`: cache the node's world pose expressed in
the driving body's frame. -/
def initOffsets (bodyPos : Vector3) (bodyQuat : Quaternion) (objWorld : PoseRT) : SyncState :=
  { offsetPos := applyQuaternion (qconj bodyQuat) (objWorld.pos - bodyPos)
    offsetQuat := qmul (qconj bodyQuat) objWorld.quat
    hasInit := true }

/-- `SyncConstraint.update`: initialize the offset cache on first call, then
recompose the body's current pose with the cached offset and write it back —
through the parent's inverse world matrix when a parent exists (the
`Matrix4` compose/premultiply-inverse/decompose sequence, here for a
rotation+translation parent matrix), directly as world pose otherwise.
Returns the updated cache and the node's new local position/quaternion. -/
def syncUpdate (ss : SyncState) (bodyPos : Vector3) (bodyQuat : Quaternion)
    (parent : Option PoseRT) (localPos : Vector3) (localQuat : Quaternion) :
    SyncState × Vector3 × Quaternion :=
  let ss1 := if ss.hasInit then ss
             else initOffsets bodyPos bodyQuat (worldOfLocal parent localPos localQuat)
  let worldQuat := qmul bodyQuat ss1.offsetQuat
  let worldPos := applyQuaternion bodyQuat ss1.offsetPos + bodyPos
  match parent with
  | some p =>
    (ss1, applyQuaternion (qconj p.quat) (worldPos - p.pos), qmul (qconj p.quat) worldQuat)
  | none => (ss1, worldPos, worldQuat)

/-! ## Quaternion algebra for unit rotations -/

theorem vadd_mk (a b c d e f : ℚ) :
    (Vector3.mk a b c) + (Vector3.mk d e f) = ⟨a + d, b + e, c + f⟩ := rfl

theorem vsub_mk (a b c d e f : ℚ) :
    (Vector3.mk a b c) - (Vector3.mk d e f) = ⟨a - d, b - e, c - f⟩ := rfl

theorem vsub_vadd_cancel (v w : Vector3) : v - w + w = v := by
  obtain ⟨a, b, c⟩ := v
  obtain ⟨d, e, f⟩ := w
  simp only [vsub_mk, vadd_mk, Vector3.mk.injEq]
  refine ⟨by ring, by ring, by ring⟩

theorem qconj_qconj (q : Quaternion) : qconj (qconj q) = q := by
  obtain ⟨x, y, z, w⟩ := q
  simp [qconj]

theorem normSq_qconj (q : Quaternion) : normSq (qconj q) = normSq q := by
  obtain ⟨x, y, z, w⟩ := q
  simp only [normSq, qconj]
  ring

/-- Rotating by a unit quaternion after rotating by its conjugate is the
identity (the exact three.js `applyQuaternion` formula). -/
theorem applyQuaternion_qconj_cancel (q : Quaternion) (v : Vector3)
    (h : normSq q = 1) : applyQuaternion q (applyQuaternion (qconj q) v) = v := by
  obtain ⟨x, y, z, w⟩ := q
  obtain ⟨a, b, c⟩ := v
  simp only [normSq] at h
  simp only [applyQuaternion, qconj, Vector3.mk.injEq]
  refine ⟨?_, ?_, ?_⟩
  · linear_combination (4 * ((x ^ 2 + y ^ 2 + z ^ 2) * a - (x * a + y * b + z * c) * x)) * h
  · linear_combination (4 * ((x ^ 2 + y ^ 2 + z ^ 2) * b - (x * a + y * b + z * c) * y)) * h
  · linear_combination (4 * ((x ^ 2 + y ^ 2 + z ^ 2) * c - (x * a + y * b + z * c) * z)) * h

theorem qconj_applyQuaternion_cancel (q : Quaternion) (v : Vector3)
    (h : normSq q = 1) : applyQuaternion (qconj q) (applyQuaternion q v) = v := by
  have h2 : normSq (qconj q) = 1 := by rw [normSq_qconj]; exact h
  have := applyQuaternion_qconj_cancel (qconj q) v h2
  rwa [qconj_qconj] at this

/-- `q · (q̄ · r) = r` for a unit quaternion. -/
theorem qmul_qconj_cancel (q r : Quaternion) (h : normSq q = 1) :
    qmul q (qmul (qconj q) r) = r := by
  obtain ⟨x, y, z, w⟩ := q
  obtain ⟨a, b, c, d⟩ := r
  simp only [normSq] at h
  simp only [qmul, qconj, Quaternion.mk.injEq]
  refine ⟨?_, ?_, ?_, ?_⟩
  · linear_combination a * h
  · linear_combination b * h
  · linear_combination c * h
  · linear_combination d * h

/-- `q̄ · (q · r) = r` for a unit quaternion. -/
theorem qconj_qmul_cancel (q r : Quaternion) (h : normSq q = 1) :
    qmul (qconj q) (qmul q r) = r := by
  have h2 : normSq (qconj q) = 1 := by rw [normSq_qconj]; exact h
  have := qmul_qconj_cancel (qconj q) r h2
  rwa [qconj_qconj] at this

/-! ## 32-bit arithmetic facts -/

theorem toUint32_lt (n : Int) : toUint32 n < 4294967296 := by
  unfold toUint32
  have h1 : 0 ≤ n % (4294967296 : Int) := Int.emod_nonneg n (by norm_num)
  have h2 : n % (4294967296 : Int) < 4294967296 := Int.emod_lt_of_pos n (by norm_num)
  omega

theorem toUint32_cast (u : Nat) (h : u < 4294967296) : toUint32 (u : Int) = u := by
  unfold toUint32
  omega

theorem toInt32_cast_toUint32 (x : Int) :
    toInt32 ((toUint32 x : Nat) : Int) = toInt32 x := by
  unfold toInt32
  rw [toUint32_cast _ (toUint32_lt x)]

theorem toInt32_range (x : Int) : -2147483648 ≤ toInt32 x ∧ toInt32 x < 2147483648 := by
  unfold toInt32
  have := toUint32_lt x
  split <;> omega

theorem toInt32_of_range (x : Int) (h1 : -2147483648 ≤ x) (h2 : x < 2147483648) :
    toInt32 x = x := by
  unfold toInt32 toUint32
  have h3 : 0 ≤ x % (4294967296 : Int) := Int.emod_nonneg x (by norm_num)
  have h4 : x % (4294967296 : Int) < 4294967296 := Int.emod_lt_of_pos x (by norm_num)
  have h5 : (4294967296 : Int) ∣ x - x % (4294967296 : Int) := Int.dvd_sub_of_emod_eq rfl
  rcases h5 with ⟨k, hk⟩
  split <;> omega

theorem jsOr_zero (a : Int) (h1 : -2147483648 ≤ a) (h2 : a < 2147483648) : jsOr a 0 = a := by
  unfold jsOr
  have h0 : toUint32 0 = 0 := by decide
  rw [h0]
  rw [show toUint32 a ||| 0 = toUint32 a by simp]
  rw [toInt32_cast_toUint32, toInt32_of_range a h1 h2]

theorem jsShl_zero (b : Int) : jsShl 0 b = 0 := by
  unfold jsShl
  have h0 : toUint32 0 = 0 := by decide
  rw [h0, Nat.zero_shiftLeft]
  rfl

/-! ## Bitmask resolution: the flag-array reading -/

theorem jsOr_range (a b : Int) : -2147483648 ≤ jsOr a b ∧ jsOr a b < 2147483648 :=
  toInt32_range _

/-- The positions of the set flags in a 0/1 flag list — the "selected bit
indices" of the specification. -/
def selectedIdxs (l : List Int) : List Nat :=
  (l.enum.filter fun p => p.2 == 1).map (·.1)

/-- The OR of `1 << i` over a list of selected bit indices (the formula the
specification gives for bitmask resolution). -/
def orOfBits (idxs : List Nat) : Int :=
  idxs.foldl (fun (m : Int) (i : Nat) => jsOr m (jsShl 1 (i : Int))) 0

theorem bitmask_go (l : List Int) (hl : ∀ b ∈ l, b = 0 ∨ b = 1) :
    ∀ (n : Nat) (a : Int), -2147483648 ≤ a → a < 2147483648 →
    (List.enumFrom n l).foldl (fun mask p => jsOr mask (jsShl p.2 p.1)) a =
      ((List.enumFrom n l).filter fun p => p.2 == 1).foldl
        (fun m p => jsOr m (jsShl 1 p.1)) a := by
  induction l with
  | nil =>
    intro n a _ _
    simp only [List.enumFrom_nil, List.filter_nil, List.foldl_nil]
  | cons b t ih =>
    intro n a h1 h2
    have hbt : ∀ x ∈ t, x = 0 ∨ x = 1 := fun x hx => hl x (List.mem_cons_of_mem b hx)
    have e1 : List.enumFrom n (b :: t) = (n, b) :: List.enumFrom (n + 1) t := rfl
    rw [e1, List.foldl_cons, List.filter_cons]
    rcases hl b (List.mem_cons_self b t) with h0 | hone
    · subst h0
      rw [jsShl_zero, jsOr_zero a h1 h2]
      rw [show (((n, (0 : Int)).2 == 1) = false) from rfl]
      simp only [Bool.false_eq_true, if_false]
      exact ih hbt (n + 1) a h1 h2
    · subst hone
      rw [show (((n, (1 : Int)).2 == 1) = true) from rfl]
      simp only [if_true]
      rw [List.foldl_cons]
      exact ih hbt (n + 1) _ (jsOr_range a _).1 (jsOr_range a _).2

/-! ## Claim C4 — normalization idempotence -/

/-- C4 counterexample: normalizing an already-integer collision group value
does NOT return that integer unchanged — with the companion `_array`
annotation absent, the integer `5` normalizes to `0`, because
`arrayToBitmask` replaces a numeric first argument by `flagsArray ?? []`. -/
theorem normalize_integer_counterexample :
    normalizeGroupVal (some (.num 5)) none ≠ some (.num 5) ∧
    normalizeGroupVal (some (.num 5)) none = some (.num 0) := by
  exact ⟨by decide, by decide⟩

/-- C4 (amended): normalizing an already-numeric tag value returns it
unchanged (and tag normalization is idempotent in general); normalizing an
already-integer collision group/mask value re-derives it from the companion
`_array` annotation (yielding `0` when that is absent) instead of returning
it verbatim — this re-derivation is idempotent, so a repeated scan leaves
the value of the first scan unchanged. -/
theorem normalize_idempotent :
    (∀ n : Int, normalizeTypeVal (some (.num n)) = some (.num n)) ∧
    (∀ v : Option TagVal, normalizeTypeVal (normalizeTypeVal v) = normalizeTypeVal v) ∧
    (∀ (n : Int) (garr : Option (List Int)),
      normalizeGroupVal (normalizeGroupVal (some (.num n)) garr) garr =
        normalizeGroupVal (some (.num n)) garr) ∧
    (∀ (n : Int) (garr : Option (List Int)),
      normalizeGroupVal (some (.num n)) garr =
        if n = 0 then some (.num 0) else some (.num (bitmaskOfList (garr.getD [])))) := by
  have harr : ∀ (m : Int) (garr : Option (List Int)),
      arrayToBitmask (.num m) garr = bitmaskOfList (garr.getD []) := fun m garr => rfl
  have hnum : ∀ (n : Int) (garr : Option (List Int)),
      normalizeGroupVal (some (.num n)) garr =
        if n = 0 then some (.num 0) else some (.num (bitmaskOfList (garr.getD []))) := by
    intro n garr
    by_cases hn : n = 0
    · subst hn
      rfl
    · have ht : truthy (some (.num n)) = true := by
        simp [truthy, bne_iff_ne, hn]
      simp only [normalizeGroupVal, ht, if_true, harr]
      simp [hn]
  refine ⟨fun n => rfl, ?_, ?_, hnum⟩
  · intro v
    match v with
    | none => rfl
    | some (.num n) => rfl
    | some (.str s) =>
      show normalizeTypeVal ((TypeAsString s).map .num) = (TypeAsString s).map .num
      cases TypeAsString s with
      | none => rfl
      | some k => rfl
  · intro n garr
    rw [hnum n garr]
    by_cases hn : n = 0
    · simp only [hn, if_true]
      rfl
    · simp only [hn, if_false]
      rw [hnum]
      by_cases hb : bitmaskOfList (garr.getD []) = 0
      · simp [hb]
      · simp [hb]

/-! ## Claim C5 — bitmask resolution and defaulting -/

/-- C5 counterexample: for the annotation list `[2]` (a list holding the
selected bit index `2`), the code resolves the bitmask to `2` — the element
shifted by its position, `2 << 0` — not to `1 << 2 = 4` as the claim's
formula states; and a caller building a body passes a resolved `0` through
as collision group `0` rather than defaulting it to `1` (`?? 1` only
replaces `undefined`). -/
theorem arrayToBitmask_counterexample :
    arrayToBitmask (.arr [2]) none ≠ orOfBits [2] ∧
    arrayToBitmask (.arr [2]) none = 2 ∧ orOfBits [2] = 4 ∧
    (createCollider { world := {} } (some (.sphere 1)) idTRS
        { threejscannones_cgroup := some (.num 0) } []).1.collisionFilterGroup = .num 0 ∧
    NumOrArr.num 0 ≠ NumOrArr.num 1 := by
  exact ⟨by decide, by decide, by decide, rfl, by decide⟩

/-- C5 (amended): a list-valued collision annotation is a per-position flag
array — the resolved bitmask is the fold of `element << position` — which
for a 0/1 flag list equals the OR of `1 << index` over exactly the selected
(set) positions; an empty list resolves to `0`; the body-building caller
defaults an absent annotation to `1` but passes a resolved value — including
`0` — through verbatim. -/
theorem arrayToBitmask_flagfold :
    (∀ (l : List Int) (garr : Option (List Int)), (∀ b ∈ l, b = 0 ∨ b = 1) →
      arrayToBitmask (.arr l) garr = orOfBits (selectedIdxs l)) ∧
    (∀ garr, arrayToBitmask (.arr []) garr = 0) ∧
    (∀ st sh w path ud,
      (createCollider st sh w ud path).1.collisionFilterGroup =
        ud.threejscannones_cgroup.getD (.num 1) ∧
      (createCollider st sh w ud path).1.collisionFilterMask =
        ud.threejscannones_cwith.getD (.num 1)) := by
  refine ⟨?_, fun garr => rfl, fun st sh w path ud => ⟨rfl, rfl⟩⟩
  intro l garr hl
  show bitmaskOfList l = orOfBits (selectedIdxs l)
  unfold bitmaskOfList orOfBits selectedIdxs
  rw [List.foldl_map]
  have he : l.enum = List.enumFrom 0 l := rfl
  rw [he]
  exact bitmask_go l hl 0 0 (by norm_num) (by norm_num)

/-- Witness for `arrayToBitmask_flagfold` at the concrete flag list
`[1, 0, 1]` (selected indices 0 and 2, bitmask 5). -/
theorem arrayToBitmask_flagfold_witness :
    (∀ b ∈ ([1, 0, 1] : List Int), b = 0 ∨ b = 1) ∧
    arrayToBitmask (.arr [1, 0, 1]) none = orOfBits (selectedIdxs [1, 0, 1]) ∧
    arrayToBitmask (.arr [1, 0, 1]) none = 5 := by
  exact ⟨by decide, arrayToBitmask_flagfold.1 [1, 0, 1] none (by decide), by decide⟩

/-! ## Claim C3 — compound assembly -/

theorem vadd_vsub_cancel (v w : Vector3) : w + (v - w) = v := by
  obtain ⟨a, b, c⟩ := v
  obtain ⟨d, e, f⟩ := w
  simp only [vsub_mk, vadd_mk, Vector3.mk.injEq]
  refine ⟨by ring, by ring, by ring⟩

/-- C3: for a compound-collider node with world transform `w`, each direct
child contributes exactly one box sub-shape sized by the child's world
scale, attached at offset `inv(compoundWorldQuat) ⊛ (childWorldPos −
compoundWorldPos)` and orientation `inv(compoundWorldQuat) ·
childWorldQuat`; the body's pose is then set to the compound's world pose,
and recomposing any sub-shape's offset/orientation with the body's final
pose reproduces that child's original world pose (for a unit compound
orientation, where three.js `invert` is the true inverse). -/
theorem addCompoundShapes_spec (w : TRS) (children : List Object3D) (b : Body)
    (hq : normSq w.quat = 1) :
    (addCompoundShapes w children b).shapes.length = b.shapes.length + children.length ∧
    (addCompoundShapes w children b).position = w.pos ∧
    (addCompoundShapes w children b).quaternion = w.quat ∧
    ∀ (i : Nat) (c : Object3D), children.get? i = some c →
      ∃ si : ShapeInst,
        (addCompoundShapes w children b).shapes.get? (b.shapes.length + i) = some si ∧
        si.shape = .box (worldOf w c).scale ∧
        si.offset = applyQuaternion (qconj w.quat) ((worldOf w c).pos - w.pos) ∧
        si.orientation = qmul (qconj w.quat) (worldOf w c).quat ∧
        (addCompoundShapes w children b).position +
            applyQuaternion (addCompoundShapes w children b).quaternion si.offset =
          (worldOf w c).pos ∧
        qmul (addCompoundShapes w children b).quaternion si.orientation =
          (worldOf w c).quat := by
  refine ⟨?_, rfl, rfl, ?_⟩
  · show (b.shapes ++ children.map _).length = _
    rw [List.length_append, List.length_map]
  · intro i c hc
    refine ⟨{ shape := .box (worldOf w c).scale
              offset := applyQuaternion (qconj w.quat) ((worldOf w c).pos - w.pos)
              orientation := qmul (qconj w.quat) (worldOf w c).quat },
            ?_, rfl, rfl, rfl, ?_, ?_⟩
    · show (b.shapes ++ children.map _).get? (b.shapes.length + i) = _
      rw [List.get?_append_right (Nat.le_add_right _ _), Nat.add_sub_cancel_left,
        List.get?_map, hc]
      rfl
    · show w.pos + applyQuaternion w.quat
          (applyQuaternion (qconj w.quat) ((worldOf w c).pos - w.pos)) = (worldOf w c).pos
      rw [applyQuaternion_qconj_cancel _ _ hq, vadd_vsub_cancel]
    · show qmul w.quat (qmul (qconj w.quat) (worldOf w c).quat) = (worldOf w c).quat
      exact qmul_qconj_cancel _ _ hq

/-- Witness for `addCompoundShapes_spec`: a compound rotated by the unit
quaternion (3/5, 0, 0, 4/5) at (1, 1, 0) with one child box. -/
theorem addCompoundShapes_spec_witness :
    normSq (⟨3/5, 0, 0, 4/5⟩ : Quaternion) = 1 ∧
    ((addCompoundShapes ⟨⟨1, 1, 0⟩, ⟨3/5, 0, 0, 4/5⟩, ⟨1, 1, 1⟩⟩
        [.mk "c" {} ⟨0, 2, 0⟩ qid ⟨2, 1, 1⟩ true []] { id := 7 }).shapes.length =
      ({ id := 7 } : Body).shapes.length + 1 ∧
     (addCompoundShapes ⟨⟨1, 1, 0⟩, ⟨3/5, 0, 0, 4/5⟩, ⟨1, 1, 1⟩⟩
        [.mk "c" {} ⟨0, 2, 0⟩ qid ⟨2, 1, 1⟩ true []] { id := 7 }).position = ⟨1, 1, 0⟩) := by
  have h := addCompoundShapes_spec ⟨⟨1, 1, 0⟩, ⟨3/5, 0, 0, 4/5⟩, ⟨1, 1, 1⟩⟩
    [.mk "c" {} ⟨0, 2, 0⟩ qid ⟨2, 1, 1⟩ true []] { id := 7 } (by norm_num [normSq])
  exact ⟨by norm_num [normSq], h.1, h.2.1⟩

/-! ## Claim C8 — sync link offset round-trip -/

/-- C8: for unit orientations (and the rotation+translation parent frames of
the model), (1) the first `update` call caches the body→node offset and
writes the node back so that its world pose equals the world pose it had
before the call — exactly, for any current body pose, hence in particular
when the body has not moved since rigging; (2) on every later update the
node's new world pose is the driving body's current pose composed with the
cached fixed offset, written as a parent-local pose when the node has a
parent and as a world pose directly otherwise. -/
theorem syncUpdate_spec :
    (∀ (bp : Vector3) (bq : Quaternion) (p : PoseRT) (lp : Vector3) (lq : Quaternion),
      normSq bq = 1 → normSq p.quat = 1 →
      worldOfLocal (some p) (syncUpdate {} bp bq (some p) lp lq).2.1
          (syncUpdate {} bp bq (some p) lp lq).2.2 = worldOfLocal (some p) lp lq ∧
      (syncUpdate {} bp bq (some p) lp lq).1.hasInit = true) ∧
    (∀ (bp : Vector3) (bq : Quaternion) (lp : Vector3) (lq : Quaternion),
      normSq bq = 1 →
      worldOfLocal none (syncUpdate {} bp bq none lp lq).2.1
          (syncUpdate {} bp bq none lp lq).2.2 = worldOfLocal none lp lq) ∧
    (∀ (ss : SyncState) (bp : Vector3) (bq : Quaternion) (p : PoseRT)
        (lp : Vector3) (lq : Quaternion),
      ss.hasInit = true → normSq p.quat = 1 →
      worldOfLocal (some p) (syncUpdate ss bp bq (some p) lp lq).2.1
          (syncUpdate ss bp bq (some p) lp lq).2.2 =
        ⟨applyQuaternion bq ss.offsetPos + bp, qmul bq ss.offsetQuat⟩ ∧
      (syncUpdate ss bp bq (some p) lp lq).1 = ss) ∧
    (∀ (ss : SyncState) (bp : Vector3) (bq : Quaternion) (lp : Vector3) (lq : Quaternion),
      ss.hasInit = true →
      (syncUpdate ss bp bq none lp lq).2.1 = applyQuaternion bq ss.offsetPos + bp ∧
      (syncUpdate ss bp bq none lp lq).2.2 = qmul bq ss.offsetQuat ∧
      (syncUpdate ss bp bq none lp lq).1 = ss) := by
  have hfalse : ({} : SyncState).hasInit = false := rfl
  refine ⟨?_, ?_, ?_, ?_⟩
  · intro bp bq p lp lq hbq hp
    simp only [syncUpdate, hfalse, Bool.false_eq_true, if_false, initOffsets, worldOfLocal]
    refine ⟨?_, trivial⟩
    rw [qmul_qconj_cancel _ _ hbq, applyQuaternion_qconj_cancel _ _ hbq,
      vsub_vadd_cancel, applyQuaternion_qconj_cancel _ _ hp,
      qmul_qconj_cancel _ _ hp, vadd_vsub_cancel]
  · intro bp bq lp lq hbq
    simp only [syncUpdate, hfalse, Bool.false_eq_true, if_false, initOffsets, worldOfLocal]
    rw [qmul_qconj_cancel _ _ hbq, applyQuaternion_qconj_cancel _ _ hbq, vsub_vadd_cancel]
  · intro ss bp bq p lp lq hinit hp
    simp only [syncUpdate, hinit, if_true, worldOfLocal]
    refine ⟨?_, trivial⟩
    rw [applyQuaternion_qconj_cancel _ _ hp, qmul_qconj_cancel _ _ hp, vadd_vsub_cancel]
  · intro ss bp bq lp lq hinit
    simp only [syncUpdate, hinit, if_true]
    exact ⟨trivial, trivial, trivial⟩

/-- Witness for `syncUpdate_spec`: a body rotated by the unit quaternion
(0, 3/5, 0, 4/5) at (2, 0, 0), a parented node at local (1, 0, 0). -/
theorem syncUpdate_spec_witness :
    normSq (⟨0, 3/5, 0, 4/5⟩ : Quaternion) = 1 ∧ normSq qid = 1 ∧
    (worldOfLocal (some ⟨⟨0, 1, 0⟩, qid⟩)
        (syncUpdate {} ⟨2, 0, 0⟩ ⟨0, 3/5, 0, 4/5⟩ (some ⟨⟨0, 1, 0⟩, qid⟩) ⟨1, 0, 0⟩ qid).2.1
        (syncUpdate {} ⟨2, 0, 0⟩ ⟨0, 3/5, 0, 4/5⟩ (some ⟨⟨0, 1, 0⟩, qid⟩) ⟨1, 0, 0⟩ qid).2.2 =
      worldOfLocal (some ⟨⟨0, 1, 0⟩, qid⟩) ⟨1, 0, 0⟩ qid) := by
  have h := syncUpdate_spec.1 ⟨2, 0, 0⟩ ⟨0, 3/5, 0, 4/5⟩ ⟨⟨0, 1, 0⟩, qid⟩ ⟨1, 0, 0⟩ qid
    (by norm_num [normSq]) (by norm_num [normSq, qid])
  exact ⟨by norm_num [normSq], by norm_num [normSq, qid], h.1⟩

/-! ## Claim C10 — `getBodyByName` on an undefined name -/

theorem go_first_nameless :
    ∀ (l1 l2 : List Obj2BodEntry) (e : Obj2BodEntry), e.name = none →
      (∀ e1 ∈ l1, e1.name ≠ none) →
      getBodyByName.go none (l1 ++ e :: l2) = some e.body := by
  intro l1
  induction l1 with
  | nil =>
    intro l2 e he _
    show (if e.name = none then some e.body else getBodyByName.go none l2) = some e.body
    rw [if_pos he]
  | cons a l1' ih =>
    intro l2 e he hall
    show (if a.name = none then some a.body else getBodyByName.go none (l1' ++ e :: l2)) =
      some e.body
    rw [if_neg (hall a (List.mem_cons_self a l1'))]
    exact ih l2 e he fun e1 h1 => hall e1 (List.mem_cons_of_mem a h1)

/-- The sync links of a constraint list, as (node path, node name, driven
body id) triples. -/
def syncWiring : List RigConstraint → List (List Nat × Option String × Nat)
  | [] => []
  | .sync p n b _ :: rest => (p, n, b.id) :: syncWiring rest
  | _ :: rest => syncWiring rest

/-- C10 (implicit): `getBodyByName` called with an undefined name — which
pass 2 does for every node whose A/B/sync-source annotation is absent — is
not always "not found": it returns the body of the first indexed node whose
`userData.name` is absent (`undefined === undefined` holds); concretely,
rigging a scene holding a nameless box collider (body id 0) and a sync node
with no sync-source annotation silently wires the sync link to that
unrelated body. -/
theorem getBodyByName_undefined :
    (∀ (st : RigState) (l1 l2 : List Obj2BodEntry) (e : Obj2BodEntry),
      st.obj2bod = l1 ++ e :: l2 → e.name = none → (∀ e1 ∈ l1, e1.name ≠ none) →
      getBodyByName st none = some e.body) ∧
    ((rigScene idTRS { world := {} }
        (.mk "root" {} vzero qid ⟨1, 1, 1⟩ true
          [.mk "box" { threejscannones_type := some (.str "box") } vzero qid ⟨1, 1, 1⟩ true [],
           .mk "s" { name := some "S", threejscannones_type := some (.str "sync") }
             vzero qid ⟨1, 1, 1⟩ true []])).toOption.map
        (fun p => (p.2.obj2bod.map (fun e => (e.path, e.name, e.body.id)),
                   syncWiring p.2.constraints, p.2.warnings)) =
      some ([([0], none, 0)], [([1], some "S", 0)], [])) := by
  constructor
  · intro st l1 l2 e hsplit he hall
    show getBodyByName.go none st.obj2bod = some e.body
    rw [hsplit]
    exact go_first_nameless l1 l2 e he hall
  · rfl

/-- Witness for `getBodyByName_undefined`: one nameless entry in the index. -/
theorem getBodyByName_undefined_witness :
    (({ world := {}, obj2bod := [{ path := [0], name := none, body := { id := 5 } }] } :
        RigState).obj2bod =
      [] ++ { path := [0], name := none, body := { id := 5 } } :: [] ∧
     ({ path := [0], name := none, body := ({ id := 5 } : Body) } : Obj2BodEntry).name = none) ∧
    getBodyByName
      { world := {}, obj2bod := [{ path := [0], name := none, body := { id := 5 } }] } none =
      some { id := 5 } := by
  refine ⟨⟨rfl, rfl⟩, ?_⟩
  exact getBodyByName_undefined.1 _ [] []
    { path := [0], name := none, body := { id := 5 } } rfl rfl (by simp)

/-! ## Claim C7 — unresolved sync source is skipped with a warning -/

/-- C7: for every sync-tagged node whose sync-source reference does not
resolve to a body, the pass-2 dispatch returns success with only a warning
appended — no sync link or joint is created, the constraint list and the
physics world are untouched — and, for a childless such node, the traversal
continues over the remaining nodes from that warned state. -/
theorem sync_unresolved_skip :
    (∀ (ctx : TRS) (path : List Nat) (o : Object3D) (st : RigState),
      tagNum o.userData.threejscannones_type = some 8 →
      getBodyByName st o.userData.threejscannones_syncSource = none →
      pass2Step ctx path o st = .ok { st with warnings := st.warnings ++
        ["Object " ++ o.name ++ " points to a non existent collider for its sync constrain."] }) ∧
    (∀ (ctx : TRS) (path : List Nat) (i : Nat) (st : RigState) (o : Object3D)
        (rest : List Object3D),
      tagNum o.userData.threejscannones_type = some 8 →
      getBodyByName st o.userData.threejscannones_syncSource = none →
      o.children = [] →
      rigPass2List ctx path i st (o :: rest) =
        rigPass2List ctx path (i + 1) { st with warnings := st.warnings ++
          ["Object " ++ o.name ++ " points to a non existent collider for its sync constrain."] }
          rest) := by
  have hstep : ∀ (ctx : TRS) (path : List Nat) (o : Object3D) (st : RigState),
      tagNum o.userData.threejscannones_type = some 8 →
      getBodyByName st o.userData.threejscannones_syncSource = none →
      pass2Step ctx path o st = .ok { st with warnings := st.warnings ++
        ["Object " ++ o.name ++ " points to a non existent collider for its sync constrain."] } := by
    intro ctx path o st htag hsrc
    simp only [pass2Step]
    rw [htag]
    show Except.ok (createSyncBetween st path o
      (getBodyByName st o.userData.threejscannones_syncSource)) = _
    rw [hsrc]
    rfl
  refine ⟨hstep, ?_⟩
  intro ctx path i st o rest htag hsrc hch
  obtain ⟨nm, ud, pos, q, scl, vis, ch⟩ := o
  have hch' : ch = [] := hch
  subst hch'
  have e1 : rigPass2List ctx path i st (Object3D.mk nm ud pos q scl vis [] :: rest) =
      match rigPass2 ctx (path ++ [i]) st (Object3D.mk nm ud pos q scl vis []) with
      | .error e => .error e
      | .ok st1 => rigPass2List ctx path (i + 1) st1 rest := rfl
  have e2 : rigPass2 ctx (path ++ [i]) st (Object3D.mk nm ud pos q scl vis []) =
      .ok { st with warnings := st.warnings ++
        ["Object " ++ (Object3D.mk nm ud pos q scl vis []).name ++
          " points to a non existent collider for its sync constrain."] } := by
    have e3 : rigPass2 ctx (path ++ [i]) st (Object3D.mk nm ud pos q scl vis []) =
        match pass2Step ctx (path ++ [i]) (Object3D.mk nm ud pos q scl vis []) st with
        | .error e => .error e
        | .ok st1 => rigPass2List (composeLocal ctx pos q scl) (path ++ [i]) 0 st1 [] := rfl
    rw [e3, hstep ctx (path ++ [i]) (Object3D.mk nm ud pos q scl vis []) st htag hsrc]
    rfl
  rw [e1, e2]

/-- Witness for `sync_unresolved_skip`: a sync node pointing at the name
"nope" while the index holds only a body named "A". -/
theorem sync_unresolved_skip_witness :
    (tagNum ({ name := some "S", threejscannones_type := some (.num 8)
               threejscannones_syncSource := some "nope" } :
        UserData).threejscannones_type = some 8 ∧
     getBodyByName
       { world := {}, obj2bod := [{ path := [0], name := some "A", body := { id := 1 } }] }
       (some "nope") = none) ∧
    pass2Step idTRS [1]
      (.mk "S" { name := some "S", threejscannones_type := some (.num 8)
                 threejscannones_syncSource := some "nope" } vzero qid ⟨1, 1, 1⟩ true [])
      { world := {}, obj2bod := [{ path := [0], name := some "A", body := { id := 1 } }] } =
      .ok { world := {}
            obj2bod := [{ path := [0], name := some "A", body := { id := 1 } }]
            warnings := ["Object S points to a non existent collider for its sync constrain."] } := by
  refine ⟨⟨rfl, rfl⟩, ?_⟩
  exact sync_unresolved_skip.1 idTRS [1] _ _ rfl rfl

/-! ## Claim C9 — cable anchors and the stale scratch register -/

/-- The cable rigs of a constraint list, by their (squared) length. -/
def cableLengthsSq : List RigConstraint → List ℚ
  | [] => []
  | .cable _ _ tube _ _ :: rest => tube.lengthSq :: cableLengthsSq rest
  | _ :: rest => cableLengthsSq rest

/-- Two cable-tagged nodes, each with two children, under an identity root:
the failing input for claim C9. -/
def staleScratchScene : Object3D :=
  .mk "root" {} vzero qid ⟨1, 1, 1⟩ true
    [.mk "cableA" { threejscannones_type := some (.str "tube") } vzero qid ⟨1, 1, 1⟩ true
       [.mk "a0" {} ⟨1, 2, 3⟩ qid ⟨1, 1, 1⟩ true [],
        .mk "a1" {} ⟨4, 5, 6⟩ qid ⟨1, 1, 1⟩ true []],
     .mk "cableB" { threejscannones_type := some (.str "tube") } vzero qid ⟨1, 1, 1⟩ true
       [.mk "b0" {} ⟨0, 0, 0⟩ qid ⟨1, 1, 1⟩ true [],
        .mk "b1" {} ⟨0, 0, 10⟩ qid ⟨1, 1, 1⟩ true []]]

/-- C9 (code bug): when several cable-tagged nodes occur in one scene, the
second cable's rig is NOT built with length equal to the distance between
its two children's world positions.  `createCable` reads the first child
with `getWorldPosition(vec)` but the second with `localToWorld(vec2)` — the
world-matrix action applied to the stale module-level scratch register, here
still holding the previous cable's tail anchor (4, 5, 6).  On
`staleScratchScene` the first cable's squared length is the correct
`distSq (1,2,3) (4,5,6) = 27`, but the second cable's is `297`
(tail anchor `(0,0,10) + (4,5,6) = (4,5,16)`), not the claimed
`distSq (0,0,0) (0,0,10) = 100`. -/
theorem createCable_stale_scratch_bug :
    ∃ L1 L2 : ℚ,
      (rigScene idTRS { world := {} } staleScratchScene).toOption.map
        (fun p => cableLengthsSq p.2.constraints) = some [L1, L2] ∧
      L1 = distSq ⟨1, 2, 3⟩ ⟨4, 5, 6⟩ ∧
      L2 = 297 ∧
      distSq ⟨0, 0, 0⟩ ⟨0, 0, 10⟩ = 100 ∧
      L2 ≠ distSq ⟨0, 0, 0⟩ ⟨0, 0, 10⟩ := by
  have e : (rigScene idTRS { world := {} } staleScratchScene).toOption.map
      (fun p => cableLengthsSq p.2.constraints) =
    some [distSq (composeLocal (composeLocal (composeLocal idTRS vzero qid ⟨1, 1, 1⟩)
                      vzero qid ⟨1, 1, 1⟩) ⟨1, 2, 3⟩ qid ⟨1, 1, 1⟩).pos
            (applyTRS (composeLocal (composeLocal (composeLocal idTRS vzero qid ⟨1, 1, 1⟩)
                      vzero qid ⟨1, 1, 1⟩) ⟨4, 5, 6⟩ qid ⟨1, 1, 1⟩) vzero),
          distSq (composeLocal (composeLocal (composeLocal idTRS vzero qid ⟨1, 1, 1⟩)
                      vzero qid ⟨1, 1, 1⟩) ⟨0, 0, 0⟩ qid ⟨1, 1, 1⟩).pos
            (applyTRS (composeLocal (composeLocal (composeLocal idTRS vzero qid ⟨1, 1, 1⟩)
                      vzero qid ⟨1, 1, 1⟩) ⟨0, 0, 10⟩ qid ⟨1, 1, 1⟩)
              (applyTRS (composeLocal (composeLocal (composeLocal idTRS vzero qid ⟨1, 1, 1⟩)
                      vzero qid ⟨1, 1, 1⟩) ⟨4, 5, 6⟩ qid ⟨1, 1, 1⟩) vzero))] := rfl
  refine ⟨_, _, e, ?_, ?_, ?_, ?_⟩
  · norm_num [distSq, composeLocal, applyTRS, applyQuaternion, vmulc, idTRS, qid, vzero,
      qmul, vadd_mk, vsub_mk]
  · norm_num [distSq, composeLocal, applyTRS, applyQuaternion, vmulc, idTRS, qid, vzero,
      qmul, vadd_mk, vsub_mk]
  · norm_num [distSq]
  · norm_num [distSq, composeLocal, applyTRS, applyQuaternion, vmulc, idTRS, qid, vzero,
      qmul, vadd_mk, vsub_mk]

/-! ## Pass-1 analysis: normalized tree and body registration -/

/-- First lookup of a node→body index entry by node path. -/
def lookupPath (p : List Nat) : List Obj2BodEntry → Option Body
  | [] => none
  | e :: rest => if e.path = p then some e.body else lookupPath p rest

/-- The collider tags (box, sphere, compound). -/
def isColliderTag (t : Option Int) : Bool :=
  t == some 1 || t == some 2 || t == some 3

mutual
/-- What pass 1 does to the scene tree itself: normalized annotations, and
collider nodes hidden. -/
def normTree : Object3D → Object3D
  | .mk nm ud pos q scl vis ch =>
    let ud1 := normalizeUserData ud
    let t := tagNum ud1.threejscannones_type
    let vis1 := if t = some 1 then false else if t = some 2 then false
                else if t = some 3 then false else vis
    .mk nm ud1 pos q scl vis1 (normTreeList ch)

def normTreeList : List Object3D → List Object3D
  | [] => []
  | c :: rest => normTree c :: normTreeList rest
end

theorem normTreeList_eq_map : ∀ l : List Object3D, normTreeList l = l.map normTree
  | [] => rfl
  | c :: rest => by
    show normTree c :: normTreeList rest = normTree c :: rest.map normTree
    rw [normTreeList_eq_map rest]

theorem normTree_mk (nm ud pos q scl vis ch) :
    normTree (.mk nm ud pos q scl vis ch) =
      .mk nm (normalizeUserData ud) pos q scl
        (if tagNum (normalizeUserData ud).threejscannones_type = some 1 then false
         else if tagNum (normalizeUserData ud).threejscannones_type = some 2 then false
         else if tagNum (normalizeUserData ud).threejscannones_type = some 3 then false
         else vis)
        (normTreeList ch) := rfl

/-- `getNode` commutes with tree normalization. -/
theorem getNode_normTree : ∀ (o : Object3D) (p : List Nat),
    getNode (normTree o) p = (getNode o p).map normTree := by
  intro o p
  induction p generalizing o with
  | nil => rfl
  | cons i rest ih =>
    obtain ⟨nm, ud, pos, q, scl, vis, ch⟩ := o
    show (match (normTreeList ch).get? i with
          | some c => getNode c rest
          | none => none) =
      Option.map normTree (match ch.get? i with
          | some c => getNode c rest
          | none => none)
    rw [normTreeList_eq_map, List.get?_map]
    cases hc : ch.get? i with
    | none => rfl
    | some c =>
      show getNode (normTree c) rest = Option.map normTree (getNode c rest)
      exact ih c

/-- World transforms ignore the normalized annotations. -/
theorem worldTRSAt_normTree : ∀ (o : Object3D) (ctx : TRS) (p : List Nat),
    worldTRSAt ctx (normTree o) p = worldTRSAt ctx o p := by
  intro o ctx p
  induction p generalizing o ctx with
  | nil =>
    obtain ⟨nm, ud, pos, q, scl, vis, ch⟩ := o
    rfl
  | cons i rest ih =>
    obtain ⟨nm, ud, pos, q, scl, vis, ch⟩ := o
    show (match (normTreeList ch).get? i with
          | some c => worldTRSAt (worldOf ctx (normTree (.mk nm ud pos q scl vis ch))) c rest
          | none => none) =
      (match ch.get? i with
          | some c => worldTRSAt (worldOf ctx (.mk nm ud pos q scl vis ch)) c rest
          | none => none)
    rw [normTreeList_eq_map, List.get?_map]
    cases hc : ch.get? i with
    | none => rfl
    | some c =>
      show worldTRSAt (worldOf ctx (normTree (.mk nm ud pos q scl vis ch))) (normTree c) rest =
        worldTRSAt (worldOf ctx (.mk nm ud pos q scl vis ch)) c rest
      rw [ih c (worldOf ctx (normTree (.mk nm ud pos q scl vis ch)))]
      rfl

/-- The unfolding equation of the pass-1 visitor. -/
theorem rigPass1_mk (ctx : TRS) (path : List Nat) (st : RigState)
    (nm : String) (ud : UserData) (pos : Vector3) (q : Quaternion) (scl : Vector3)
    (vis : Bool) (ch : List Object3D) :
    rigPass1 ctx path st (.mk nm ud pos q scl vis ch) =
      (let ud1 := normalizeUserData ud
       let w := composeLocal ctx pos q scl
       let t := tagNum ud1.threejscannones_type
       let vs :=
         if t = some 1 then
           (false, (createCollider st (some (.box ⟨scl.x, scl.y, scl.z⟩)) w ud1 path).2)
         else if t = some 2 then
           (false, (createCollider st (some (.sphere scl.x)) w ud1 path).2)
         else if t = some 3 then
           let bs := createCollider st none w ud1 path
           (false, addCompoundShapesInState bs.2 bs.1.id w ch)
         else (vis, st)
       let rest := rigPass1List w path 0 vs.2 ch
       (.mk nm ud1 pos q scl vs.1 rest.1, rest.2)) := by
    show rigPass1 ctx path st (.mk nm ud pos q scl vis ch) = _
    unfold rigPass1
    rfl

theorem replace_bodies_last (l : List Body) (b : Body) (i : Nat) (f : Body → Body)
    (hbi : b.id = i) (h : ∀ x ∈ l, x.id ≠ i) :
    (l ++ [b]).map (fun x => if x.id = i then f x else x) = l ++ [f b] := by
  induction l with
  | nil => simp [hbi]
  | cons a t ih =>
    have ha : a.id ≠ i := h a (List.mem_cons_self a t)
    show (if a.id = i then f a else a) ::
        (t ++ [b]).map (fun x => if x.id = i then f x else x) = a :: (t ++ [f b])
    rw [if_neg ha, ih fun x hx => h x (List.mem_cons_of_mem a hx)]

theorem replace_entries_last (l : List Obj2BodEntry) (e : Obj2BodEntry) (i : Nat)
    (f : Body → Body) (hei : e.body.id = i) (h : ∀ x ∈ l, x.body.id ≠ i) :
    (l ++ [e]).map (fun x => if x.body.id = i then { x with body := f x.body } else x) =
      l ++ [{ e with body := f e.body }] := by
  induction l with
  | nil => simp [hei]
  | cons a t ih =>
    have ha : a.body.id ≠ i := h a (List.mem_cons_self a t)
    show (if a.body.id = i then { a with body := f a.body } else a) ::
        (t ++ [e]).map
          (fun x => if x.body.id = i then { x with body := f x.body } else x) =
      a :: (t ++ [{ e with body := f e.body }])
    rw [if_neg ha, ih fun x hx => h x (List.mem_cons_of_mem a hx)]

theorem lookupPath_append_left {p : List Nat} {l1 l2 : List Obj2BodEntry} {b : Body}
    (h : lookupPath p l1 = some b) : lookupPath p (l1 ++ l2) = some b := by
  induction l1 with
  | nil => exact absurd h (by simp [lookupPath])
  | cons e t ih =>
    by_cases he : e.path = p
    · show (if e.path = p then some e.body else lookupPath p (t ++ l2)) = some b
      rw [if_pos he]
      have : (if e.path = p then some e.body else lookupPath p t) = some b := h
      rwa [if_pos he] at this
    · show (if e.path = p then some e.body else lookupPath p (t ++ l2)) = some b
      rw [if_neg he]
      have : (if e.path = p then some e.body else lookupPath p t) = some b := h
      rw [if_neg he] at this
      exact ih this

theorem lookupPath_append_right {p : List Nat} {l1 l2 : List Obj2BodEntry}
    (h : ∀ e ∈ l1, e.path ≠ p) : lookupPath p (l1 ++ l2) = lookupPath p l2 := by
  induction l1 with
  | nil => rfl
  | cons e t ih =>
    show (if e.path = p then some e.body else lookupPath p (t ++ l2)) = lookupPath p l2
    rw [if_neg (h e (List.mem_cons_self e t)), ih fun x hx => h x (List.mem_cons_of_mem e hx)]

theorem ne_append_cons (path : List Nat) (j : Nat) (r : List Nat) :
    path ++ j :: r ≠ path := by
  intro h
  have := congrArg List.length h
  simp at this

theorem append_cons_ne_append_cons {path : List Nat} {i j : Nat} {r s : List Nat}
    (hij : i ≠ j) : path ++ i :: r ≠ path ++ j :: s := by
  intro h
  have h2 := List.append_cancel_left h
  exact hij (List.cons_eq_cons.mp h2).1

theorem nodup_append_of_bound {l1 l2 : List Nat} (n : Nat) (h1 : l1.Nodup) (h2 : l2.Nodup)
    (b1 : ∀ a ∈ l1, a < n) (b2 : ∀ a ∈ l2, n ≤ a) : (l1 ++ l2).Nodup := by
  refine List.Nodup.append h1 h2 ?_
  intro a ha1 ha2
  have := b1 a ha1
  have := b2 a ha2
  omega

/-- The pass-1 state invariant: everything but the node→body index, the
world's body list and the id counter is untouched, and the counter grows. -/
structure Pass1Inv (st st' : RigState) : Prop where
  constraints_eq : st'.constraints = st.constraints
  wcons_eq : st'.world.constraints = st.world.constraints
  factories_eq : st'.customId2ConstraintFactory = st.customId2ConstraintFactory
  customs_eq : st'.customConstraints = st.customConstraints
  warnings_eq : st'.warnings = st.warnings
  vec_eq : st'.vec = st.vec
  vec2_eq : st'.vec2 = st.vec2
  rot_eq : st'.rot = st.rot
  rot2_eq : st'.rot2 = st.rot2
  nextId_mono : st.nextId ≤ st'.nextId

theorem pass1InvRefl (st : RigState) : Pass1Inv st st :=
  ⟨rfl, rfl, rfl, rfl, rfl, rfl, rfl, rfl, rfl, Nat.le_refl _⟩

theorem Pass1Inv.comp {s1 s2 s3 : RigState} (a : Pass1Inv s1 s2) (b : Pass1Inv s2 s3) :
    Pass1Inv s1 s3 :=
  ⟨b.constraints_eq.trans a.constraints_eq, b.wcons_eq.trans a.wcons_eq,
   b.factories_eq.trans a.factories_eq, b.customs_eq.trans a.customs_eq,
   b.warnings_eq.trans a.warnings_eq, b.vec_eq.trans a.vec_eq, b.vec2_eq.trans a.vec2_eq,
   b.rot_eq.trans a.rot_eq, b.rot2_eq.trans a.rot2_eq,
   Nat.le_trans a.nextId_mono b.nextId_mono⟩

/-- The body-building switch of the pass-1 visitor, factored out. -/
def pass1Body (st : RigState) (path : List Nat) (ud1 : UserData) (w : TRS)
    (scl : Vector3) (vis : Bool) (ch : List Object3D) : Bool × RigState :=
  let t := tagNum ud1.threejscannones_type
  if t = some 1 then
    (false, (createCollider st (some (.box ⟨scl.x, scl.y, scl.z⟩)) w ud1 path).2)
  else if t = some 2 then
    (false, (createCollider st (some (.sphere scl.x)) w ud1 path).2)
  else if t = some 3 then
    let bs := createCollider st none w ud1 path
    (false, addCompoundShapesInState bs.2 bs.1.id w ch)
  else (vis, st)

theorem rigPass1_snd_eq (ctx : TRS) (path : List Nat) (st : RigState) (nm : String)
    (ud : UserData) (pos : Vector3) (q : Quaternion) (scl : Vector3) (vis : Bool)
    (ch : List Object3D) :
    (rigPass1 ctx path st (.mk nm ud pos q scl vis ch)).2 =
      (rigPass1List (composeLocal ctx pos q scl) path 0
        (pass1Body st path (normalizeUserData ud) (composeLocal ctx pos q scl) scl vis ch).2
        ch).2 := rfl

theorem rigPass1_fst_eq (ctx : TRS) (path : List Nat) (st : RigState) (nm : String)
    (ud : UserData) (pos : Vector3) (q : Quaternion) (scl : Vector3) (vis : Bool)
    (ch : List Object3D) :
    (rigPass1 ctx path st (.mk nm ud pos q scl vis ch)).1 =
      .mk nm (normalizeUserData ud) pos q scl
        (pass1Body st path (normalizeUserData ud) (composeLocal ctx pos q scl) scl vis ch).1
        (rigPass1List (composeLocal ctx pos q scl) path 0
          (pass1Body st path (normalizeUserData ud) (composeLocal ctx pos q scl) scl vis ch).2
          ch).1 := rfl

theorem rigPass1List_cons_eq (ctx : TRS) (path : List Nat) (i : Nat) (st : RigState)
    (c : Object3D) (rest : List Object3D) :
    rigPass1List ctx path i st (c :: rest) =
      ((rigPass1 ctx (path ++ [i]) st c).1 ::
         (rigPass1List ctx path (i + 1) (rigPass1 ctx (path ++ [i]) st c).2 rest).1,
       (rigPass1List ctx path (i + 1) (rigPass1 ctx (path ++ [i]) st c).2 rest).2) := rfl

theorem pass1Body_fst (st : RigState) (path : List Nat) (ud1 : UserData) (w : TRS)
    (scl : Vector3) (vis : Bool) (ch : List Object3D) :
    (pass1Body st path ud1 w scl vis ch).1 =
      (if tagNum ud1.threejscannones_type = some 1 then false
       else if tagNum ud1.threejscannones_type = some 2 then false
       else if tagNum ud1.threejscannones_type = some 3 then false
       else vis) := by
  unfold pass1Body
  by_cases h1 : tagNum ud1.threejscannones_type = some 1
  · simp [h1]
  by_cases h2 : tagNum ud1.threejscannones_type = some 2
  · simp [h1, h2]
  by_cases h3 : tagNum ud1.threejscannones_type = some 3
  · simp [h1, h2, h3]
  · simp [h1, h2, h3]

/-- What a single pass-1 visit does to the session state: either the tag is
not a collider kind and the state is untouched, or exactly one fresh body is
registered at the node's world pose. -/
theorem pass1Body_spec (st : RigState) (path : List Nat) (ud1 : UserData) (w : TRS)
    (scl : Vector3) (vis : Bool) (ch : List Object3D)
    (hb1 : ∀ e ∈ st.obj2bod, e.body.id < st.nextId)
    (hb2 : ∀ b ∈ st.world.bodies, b.id < st.nextId) :
    Pass1Inv st (pass1Body st path ud1 w scl vis ch).2 ∧
    ((isColliderTag (tagNum ud1.threejscannones_type) = false ∧
        (pass1Body st path ud1 w scl vis ch).2 = st) ∨
     (isColliderTag (tagNum ud1.threejscannones_type) = true ∧
      ∃ b : Body,
        (pass1Body st path ud1 w scl vis ch).2.obj2bod =
          st.obj2bod ++ [{ path := path, name := ud1.name, body := b }] ∧
        (pass1Body st path ud1 w scl vis ch).2.world.bodies = st.world.bodies ++ [b] ∧
        (pass1Body st path ud1 w scl vis ch).2.nextId = st.nextId + 1 ∧
        b.id = st.nextId ∧ b.position = w.pos ∧ b.quaternion = w.quat ∧
        (tagNum ud1.threejscannones_type = some 1 →
          b.shapes = [{ shape := .box ⟨scl.x, scl.y, scl.z⟩ }]) ∧
        (tagNum ud1.threejscannones_type = some 2 →
          b.shapes = [{ shape := .sphere scl.x }]))) := by
  by_cases h1 : tagNum ud1.threejscannones_type = some 1
  · have he : pass1Body st path ud1 w scl vis ch =
        (false, (createCollider st (some (.box ⟨scl.x, scl.y, scl.z⟩)) w ud1 path).2) := by
      unfold pass1Body
      simp [h1]
    rw [he]
    refine ⟨⟨rfl, rfl, rfl, rfl, rfl, rfl, rfl, rfl, rfl, Nat.le_succ _⟩, Or.inr ⟨?_, ?_⟩⟩
    · simp [isColliderTag, h1]
    · refine ⟨(createCollider st (some (.box ⟨scl.x, scl.y, scl.z⟩)) w ud1 path).1,
        rfl, rfl, rfl, rfl, rfl, rfl, fun _ => rfl, fun h => ?_⟩
      rw [h1] at h
      simp at h
  by_cases h2 : tagNum ud1.threejscannones_type = some 2
  · have he : pass1Body st path ud1 w scl vis ch =
        (false, (createCollider st (some (.sphere scl.x)) w ud1 path).2) := by
      unfold pass1Body
      simp [h1, h2]
    rw [he]
    refine ⟨⟨rfl, rfl, rfl, rfl, rfl, rfl, rfl, rfl, rfl, Nat.le_succ _⟩, Or.inr ⟨?_, ?_⟩⟩
    · simp [isColliderTag, h2]
    · refine ⟨(createCollider st (some (.sphere scl.x)) w ud1 path).1,
        rfl, rfl, rfl, rfl, rfl, rfl, fun h => ?_, fun _ => rfl⟩
      rw [h2] at h
      simp at h
  by_cases h3 : tagNum ud1.threejscannones_type = some 3
  · have he : pass1Body st path ud1 w scl vis ch =
        (false, addCompoundShapesInState (createCollider st none w ud1 path).2
          (createCollider st none w ud1 path).1.id w ch) := by
      unfold pass1Body
      simp [h1, h2, h3]
    rw [he]
    have hbody : (createCollider st none w ud1 path).1.id = st.nextId := rfl
    have hob : (addCompoundShapesInState (createCollider st none w ud1 path).2
        (createCollider st none w ud1 path).1.id w ch).obj2bod =
        st.obj2bod ++ [Obj2BodEntry.mk path ud1.name
          (addCompoundShapes w ch (createCollider st none w ud1 path).1)] := by
      show (st.obj2bod ++
          [Obj2BodEntry.mk path ud1.name (createCollider st none w ud1 path).1]).map _ = _
      rw [replace_entries_last st.obj2bod
        (Obj2BodEntry.mk path ud1.name (createCollider st none w ud1 path).1)
        (createCollider st none w ud1 path).1.id (addCompoundShapes w ch) rfl
        (fun x hx => by
          have := hb1 x hx
          rw [hbody]
          omega)]
    have hwb : (addCompoundShapesInState (createCollider st none w ud1 path).2
        (createCollider st none w ud1 path).1.id w ch).world.bodies =
        st.world.bodies ++ [addCompoundShapes w ch (createCollider st none w ud1 path).1] := by
      show (st.world.bodies ++ [(createCollider st none w ud1 path).1]).map _ = _
      rw [replace_bodies_last st.world.bodies (createCollider st none w ud1 path).1
        (createCollider st none w ud1 path).1.id (addCompoundShapes w ch) rfl
        (fun x hx => by
          have := hb2 x hx
          rw [hbody]
          omega)]
    refine ⟨⟨rfl, rfl, rfl, rfl, rfl, rfl, rfl, rfl, rfl, Nat.le_succ _⟩, Or.inr ⟨?_, ?_⟩⟩
    · simp [isColliderTag, h3]
    · refine ⟨addCompoundShapes w ch (createCollider st none w ud1 path).1,
        hob, hwb, rfl, rfl, rfl, rfl, fun h => ?_, fun h => ?_⟩
      · rw [h3] at h
        simp at h
      · rw [h3] at h
        simp at h
  · have he : pass1Body st path ud1 w scl vis ch = (vis, st) := by
      unfold pass1Body
      simp [h1, h2, h3]
    rw [he]
    refine ⟨pass1InvRefl st, Or.inl ⟨?_, rfl⟩⟩
    simp [isColliderTag, h1, h2, h3]

mutual
/-- Pass-1 main induction: the traversal normalizes the tree, appends one
fresh body per collider node (indexed by the node's path) and touches
nothing else; every collider body sits at its node's world pose and its
shape is sized by the node's local scale. -/
theorem rigPass1_spec : ∀ (o : Object3D) (ctx : TRS) (path : List Nat) (st : RigState),
    (∀ e ∈ st.obj2bod, e.body.id < st.nextId) →
    (∀ b ∈ st.world.bodies, b.id < st.nextId) →
    Pass1Inv st (rigPass1 ctx path st o).2 ∧
    (rigPass1 ctx path st o).1 = normTree o ∧
    ∃ ents : List Obj2BodEntry,
      (rigPass1 ctx path st o).2.obj2bod = st.obj2bod ++ ents ∧
      (rigPass1 ctx path st o).2.world.bodies =
        st.world.bodies ++ ents.map Obj2BodEntry.body ∧
      (∀ e ∈ ents, st.nextId ≤ e.body.id ∧ e.body.id < (rigPass1 ctx path st o).2.nextId) ∧
      (ents.map fun e => e.body.id).Nodup ∧
      (∀ e ∈ ents, ∃ r, e.path = path ++ r) ∧
      ∀ p n, getNode o p = some n →
        isColliderTag (tagNum (normalizeUserData n.userData).threejscannones_type) = true →
        ∃ b w, lookupPath (path ++ p) ents = some b ∧
          worldTRSAt ctx o p = some w ∧
          b.position = w.pos ∧ b.quaternion = w.quat ∧
          (tagNum (normalizeUserData n.userData).threejscannones_type = some 1 →
            b.shapes = [{ shape := .box ⟨n.scale.x, n.scale.y, n.scale.z⟩ }]) ∧
          (tagNum (normalizeUserData n.userData).threejscannones_type = some 2 →
            b.shapes = [{ shape := .sphere n.scale.x }]) := by
  intro o ctx path st hb1 hb2
  obtain ⟨nm, ud, pos, q, scl, vis, ch⟩ := o
  have hsnd := rigPass1_snd_eq ctx path st nm ud pos q scl vis ch
  have hfst := rigPass1_fst_eq ctx path st nm ud pos q scl vis ch
  obtain ⟨hInvB, hCase⟩ := pass1Body_spec st path (normalizeUserData ud)
    (composeLocal ctx pos q scl) scl vis ch hb1 hb2
  rcases hCase with ⟨hIC, hEq⟩ |
    ⟨hIC, b, hob, hwb, hnid, hbid, hbpos, hbquat, hsh1, hsh2⟩
  · -- not a collider: the state is untouched here
    rw [hEq] at hsnd
    obtain ⟨hLinv, hLtree, entsL, hLob, hLwb, hLbnd, hLnd, hLpaths, hLcol⟩ :=
      rigPass1List_spec ch (composeLocal ctx pos q scl) path 0 st hb1 hb2
    refine ⟨by rw [hsnd]; exact hLinv, ?_, entsL, by rw [hsnd]; exact hLob,
      by rw [hsnd]; exact hLwb, by rw [hsnd]; exact hLbnd, hLnd, ?_, ?_⟩
    · rw [hfst, normTree_mk, pass1Body_fst, hEq, hLtree]
    · intro e he
      obtain ⟨j, r, _, hp⟩ := hLpaths e he
      exact ⟨j :: r, hp⟩
    · intro p n hget htag
      cases p with
      | nil =>
        obtain rfl := Option.some.inj hget
        have htag2 : isColliderTag
            (tagNum (normalizeUserData ud).threejscannones_type) = true := htag
        rw [hIC] at htag2
        exact absurd htag2 (by simp)
      | cons j s =>
        have hget2 : (match ch.get? j with
            | some c => getNode c s
            | none => none) = some n := hget
        cases hj : ch.get? j with
        | none => rw [hj] at hget2; exact absurd hget2 (by simp)
        | some c =>
          rw [hj] at hget2
          obtain ⟨b, w, hLook, hW, hpos, hquat, h1, h2⟩ := hLcol j c s n hj hget2 htag
          rw [Nat.zero_add] at hLook
          refine ⟨b, w, hLook, ?_, hpos, hquat, h1, h2⟩
          show (match ch.get? j with
            | some c => worldTRSAt
                (worldOf ctx (Object3D.mk nm ud pos q scl vis ch)) c s
            | none => none) = some w
          rw [hj]
          exact hW
  · -- collider: one fresh body is appended before the children are visited
    have hbB1 : ∀ e ∈ (pass1Body st path (normalizeUserData ud)
        (composeLocal ctx pos q scl) scl vis ch).2.obj2bod,
        e.body.id < (pass1Body st path (normalizeUserData ud)
          (composeLocal ctx pos q scl) scl vis ch).2.nextId := by
      intro e he
      rw [hob] at he
      rw [hnid]
      rcases List.mem_append.mp he with h | h
      · have := hb1 e h; omega
      · obtain rfl := List.mem_singleton.mp h
        show b.id < st.nextId + 1
        omega
    have hbB2 : ∀ x ∈ (pass1Body st path (normalizeUserData ud)
        (composeLocal ctx pos q scl) scl vis ch).2.world.bodies,
        x.id < (pass1Body st path (normalizeUserData ud)
          (composeLocal ctx pos q scl) scl vis ch).2.nextId := by
      intro x hx
      rw [hwb] at hx
      rw [hnid]
      rcases List.mem_append.mp hx with h | h
      · have := hb2 x h; omega
      · obtain rfl := List.mem_singleton.mp h
        omega
    obtain ⟨hLinv, hLtree, entsL, hLob, hLwb, hLbnd, hLnd, hLpaths, hLcol⟩ :=
      rigPass1List_spec ch (composeLocal ctx pos q scl) path 0
        (pass1Body st path (normalizeUserData ud)
          (composeLocal ctx pos q scl) scl vis ch).2 hbB1 hbB2
    refine ⟨by rw [hsnd]; exact hInvB.comp hLinv, ?_,
      Obj2BodEntry.mk path (normalizeUserData ud).name b :: entsL, ?_, ?_, ?_, ?_, ?_, ?_⟩
    · rw [hfst, normTree_mk, pass1Body_fst, hLtree]
    · rw [hsnd, hLob, hob, List.append_assoc, List.singleton_append]
    · rw [hsnd, hLwb, hwb, List.append_assoc, List.singleton_append, List.map_cons]
    · intro e he
      rw [hsnd]
      rcases List.mem_cons.mp he with rfl | h
      · refine ⟨by rw [hbid], ?_⟩
        have := hLinv.nextId_mono
        show b.id < _
        omega
      · have h1 := hLbnd e h
        have := hInvB.nextId_mono
        omega
    · rw [List.map_cons, List.nodup_cons]
      refine ⟨?_, hLnd⟩
      intro hmem
      obtain ⟨e, he, hei⟩ := List.mem_map.mp hmem
      have := (hLbnd e he).1
      rw [hnid] at this
      show False
      have hbi : (Obj2BodEntry.mk path (normalizeUserData ud).name b).body.id = b.id := rfl
      rw [hbi, hbid] at hei
      omega
    · intro e he
      rcases List.mem_cons.mp he with rfl | h
      · exact ⟨[], (List.append_nil path).symm⟩
      · obtain ⟨j, r, _, hp⟩ := hLpaths e h
        exact ⟨j :: r, hp⟩
    · intro p n hget htag
      cases p with
      | nil =>
        obtain rfl := Option.some.inj hget
        refine ⟨b, composeLocal ctx pos q scl, ?_, rfl, hbpos, hbquat,
          fun ht => hsh1 ht, fun ht => hsh2 ht⟩
        rw [List.append_nil]
        show (if path = path then some b else lookupPath path entsL) = some b
        rw [if_pos rfl]
      | cons j s =>
        have hget2 : (match ch.get? j with
            | some c => getNode c s
            | none => none) = some n := hget
        cases hj : ch.get? j with
        | none => rw [hj] at hget2; exact absurd hget2 (by simp)
        | some c =>
          rw [hj] at hget2
          obtain ⟨bc, w, hLook, hW, hpos, hquat, h1, h2⟩ := hLcol j c s n hj hget2 htag
          rw [Nat.zero_add] at hLook
          refine ⟨bc, w, ?_, ?_, hpos, hquat, h1, h2⟩
          · show (if path = path ++ j :: s then some b
              else lookupPath (path ++ j :: s) entsL) = some bc
            rw [if_neg (ne_append_cons path j s).symm]
            exact hLook
          · show (match ch.get? j with
              | some c => worldTRSAt
                  (worldOf ctx (Object3D.mk nm ud pos q scl vis ch)) c s
              | none => none) = some w
            rw [hj]
            exact hW

/-- Pass-1 main induction, list form: element `j` of the list is visited at
child index `i + j` under `path`, with `ctx` the parent's world transform. -/
theorem rigPass1List_spec : ∀ (l : List Object3D) (ctx : TRS) (path : List Nat)
    (i : Nat) (st : RigState),
    (∀ e ∈ st.obj2bod, e.body.id < st.nextId) →
    (∀ b ∈ st.world.bodies, b.id < st.nextId) →
    Pass1Inv st (rigPass1List ctx path i st l).2 ∧
    (rigPass1List ctx path i st l).1 = normTreeList l ∧
    ∃ ents : List Obj2BodEntry,
      (rigPass1List ctx path i st l).2.obj2bod = st.obj2bod ++ ents ∧
      (rigPass1List ctx path i st l).2.world.bodies =
        st.world.bodies ++ ents.map Obj2BodEntry.body ∧
      (∀ e ∈ ents, st.nextId ≤ e.body.id ∧
        e.body.id < (rigPass1List ctx path i st l).2.nextId) ∧
      (ents.map fun e => e.body.id).Nodup ∧
      (∀ e ∈ ents, ∃ j r, i ≤ j ∧ e.path = path ++ j :: r) ∧
      ∀ j c p n, l.get? j = some c → getNode c p = some n →
        isColliderTag (tagNum (normalizeUserData n.userData).threejscannones_type) = true →
        ∃ b w, lookupPath (path ++ (i + j) :: p) ents = some b ∧
          worldTRSAt ctx c p = some w ∧
          b.position = w.pos ∧ b.quaternion = w.quat ∧
          (tagNum (normalizeUserData n.userData).threejscannones_type = some 1 →
            b.shapes = [{ shape := .box ⟨n.scale.x, n.scale.y, n.scale.z⟩ }]) ∧
          (tagNum (normalizeUserData n.userData).threejscannones_type = some 2 →
            b.shapes = [{ shape := .sphere n.scale.x }]) := by
  intro l ctx path i st hb1 hb2
  cases l with
  | nil =>
    refine ⟨pass1InvRefl st, rfl, [],
      by show st.obj2bod = st.obj2bod ++ []; rw [List.append_nil],
      by show st.world.bodies = st.world.bodies ++ List.map _ []; rw [List.map_nil, List.append_nil],
      by simp, by simp, by simp, ?_⟩
    intro j c p n hj
    simp at hj
  | cons c rest =>
    obtain ⟨hCinv, hCtree, entsC, hCob, hCwb, hCbnd, hCnd, hCpaths, hCcol⟩ :=
      rigPass1_spec c ctx (path ++ [i]) st hb1 hb2
    have hb1x : ∀ e ∈ (rigPass1 ctx (path ++ [i]) st c).2.obj2bod,
        e.body.id < (rigPass1 ctx (path ++ [i]) st c).2.nextId := by
      intro e he
      rw [hCob] at he
      have hmono := hCinv.nextId_mono
      rcases List.mem_append.mp he with h | h
      · have := hb1 e h; omega
      · exact (hCbnd e h).2
    have hb2x : ∀ x ∈ (rigPass1 ctx (path ++ [i]) st c).2.world.bodies,
        x.id < (rigPass1 ctx (path ++ [i]) st c).2.nextId := by
      intro x hx
      rw [hCwb] at hx
      have hmono := hCinv.nextId_mono
      rcases List.mem_append.mp hx with h | h
      · have := hb2 x h; omega
      · obtain ⟨e, he, rfl⟩ := List.mem_map.mp h
        exact (hCbnd e he).2
    obtain ⟨hRinv, hRtree, entsR, hRob, hRwb, hRbnd, hRnd, hRpaths, hRcol⟩ :=
      rigPass1List_spec rest ctx path (i + 1) (rigPass1 ctx (path ++ [i]) st c).2 hb1x hb2x
    have hsnd : (rigPass1List ctx path i st (c :: rest)).2 =
        (rigPass1List ctx path (i + 1) (rigPass1 ctx (path ++ [i]) st c).2 rest).2 := rfl
    have hfst : (rigPass1List ctx path i st (c :: rest)).1 =
        (rigPass1 ctx (path ++ [i]) st c).1 ::
          (rigPass1List ctx path (i + 1) (rigPass1 ctx (path ++ [i]) st c).2 rest).1 := rfl
    refine ⟨by rw [hsnd]; exact hCinv.comp hRinv, ?_, entsC ++ entsR, ?_, ?_, ?_, ?_, ?_, ?_⟩
    · rw [hfst, hCtree, hRtree]
      rfl
    · rw [hsnd, hRob, hCob, List.append_assoc]
    · rw [hsnd, hRwb, hCwb, List.append_assoc, List.map_append]
    · intro e he
      rw [hsnd]
      have hmonoC := hCinv.nextId_mono
      have hmonoR := hRinv.nextId_mono
      rcases List.mem_append.mp he with h | h
      · have := hCbnd e h
        omega
      · have := hRbnd e h
        omega
    · rw [List.map_append]
      refine nodup_append_of_bound (rigPass1 ctx (path ++ [i]) st c).2.nextId hCnd hRnd ?_ ?_
      · intro a ha
        obtain ⟨e, he, rfl⟩ := List.mem_map.mp ha
        exact (hCbnd e he).2
      · intro a ha
        obtain ⟨e, he, rfl⟩ := List.mem_map.mp ha
        exact (hRbnd e he).1
    · intro e he
      rcases List.mem_append.mp he with h | h
      · obtain ⟨r, hp⟩ := hCpaths e h
        rw [List.append_assoc] at hp
        exact ⟨i, r, Nat.le_refl i, hp⟩
      · obtain ⟨j, r, hij, hp⟩ := hRpaths e h
        exact ⟨j, r, by omega, hp⟩
    · intro j c2 p n hj hget htag
      cases j with
      | zero =>
        have hc2 : c = c2 := by
          have : some c = some c2 := hj
          exact Option.some.inj this
        subst hc2
        obtain ⟨b, w, hLook, hW, hpos, hquat, h1, h2⟩ := hCcol p n hget htag
        have hL2 : lookupPath (path ++ i :: p) entsC = some b := by
          rw [List.append_assoc] at hLook
          exact hLook
        simp only [Nat.add_zero]
        exact ⟨b, w, lookupPath_append_left hL2, hW, hpos, hquat, h1, h2⟩
      | succ j2 =>
        have hj2 : rest.get? j2 = some c2 := hj
        obtain ⟨b, w, hLook, hW, hpos, hquat, h1, h2⟩ := hRcol j2 c2 p n hj2 hget htag
        have harith : i + (j2 + 1) = i + 1 + j2 := by omega
        rw [harith]
        refine ⟨b, w, ?_, hW, hpos, hquat, h1, h2⟩
        rw [lookupPath_append_right ?_]
        · exact hLook
        · intro e he
          obtain ⟨r, hp⟩ := hCpaths e he
          rw [List.append_assoc] at hp
          rw [hp]
          exact append_cons_ne_append_cons (by omega)
end

/-- C2: for every node tagged as a box, sphere or compound collider, the body
pass 1 registers for it (looked up by the node's path) has position and
orientation equal to the node's world position and orientation composed
through the full ancestor chain, for arbitrary ancestor transforms; the
node's scale enters only the shape sizing (box half-extents = local scale,
sphere radius = scale.x) and is not reapplied to the body's pose. -/
theorem collider_body_at_world_pose (ctx : TRS) (st : RigState) (o : Object3D)
    (h0 : st.obj2bod = [])
    (hb2 : ∀ b ∈ st.world.bodies, b.id < st.nextId)
    (p : List Nat) (n : Object3D)
    (hget : getNode o p = some n)
    (htag : isColliderTag (tagNum (normalizeUserData n.userData).threejscannones_type)
      = true) :
    ∃ b w, lookupPath p (rigPass1 ctx [] st o).2.obj2bod = some b ∧
      worldTRSAt ctx o p = some w ∧
      b.position = w.pos ∧ b.quaternion = w.quat ∧
      (tagNum (normalizeUserData n.userData).threejscannones_type = some 1 →
        b.shapes = [{ shape := .box ⟨n.scale.x, n.scale.y, n.scale.z⟩ }]) ∧
      (tagNum (normalizeUserData n.userData).threejscannones_type = some 2 →
        b.shapes = [{ shape := .sphere n.scale.x }]) := by
  have hb1 : ∀ e ∈ st.obj2bod, e.body.id < st.nextId := by
    rw [h0]
    simp
  obtain ⟨_, _, ents, hOb, _, _, _, _, hCol⟩ := rigPass1_spec o ctx [] st hb1 hb2
  obtain ⟨b, w, hLook, hW, hpos, hquat, h1, h2⟩ := hCol p n hget htag
  rw [List.nil_append] at hLook
  refine ⟨b, w, ?_, hW, hpos, hquat, h1, h2⟩
  rw [hOb, h0, List.nil_append]
  exact hLook

/-- The scene for the C2 witness: a translated, scaled root carrying a
rotated box-collider child, so the child's world pose really composes
through the ancestor chain. -/
def c2Scene : Object3D :=
  .mk "root" {} ⟨1, 2, 3⟩ qid ⟨1, 1, 1⟩ true
    [.mk "bx" { threejscannones_type := some (.str "box") }
      ⟨4, 0, 0⟩ ⟨0, 0, 0, 1⟩ ⟨2, 3, 4⟩ true []]

theorem collider_body_at_world_pose_witness :
    ({ world := {} } : RigState).obj2bod = [] ∧
    (∃ b w, lookupPath [0]
        (rigPass1 idTRS [] { world := {} } c2Scene).2.obj2bod = some b ∧
      worldTRSAt idTRS c2Scene [0] = some w ∧
      b.position = w.pos ∧ b.quaternion = w.quat ∧
      (tagNum (normalizeUserData (Object3D.mk "bx"
          { threejscannones_type := some (.str "box") }
          ⟨4, 0, 0⟩ ⟨0, 0, 0, 1⟩ ⟨2, 3, 4⟩ true []).userData).threejscannones_type = some 1 →
        b.shapes = [{ shape := .box ⟨(Object3D.mk "bx"
            { threejscannones_type := some (.str "box") }
            ⟨4, 0, 0⟩ ⟨0, 0, 0, 1⟩ ⟨2, 3, 4⟩ true []).scale.x,
          (Object3D.mk "bx" { threejscannones_type := some (.str "box") }
            ⟨4, 0, 0⟩ ⟨0, 0, 0, 1⟩ ⟨2, 3, 4⟩ true []).scale.y,
          (Object3D.mk "bx" { threejscannones_type := some (.str "box") }
            ⟨4, 0, 0⟩ ⟨0, 0, 0, 1⟩ ⟨2, 3, 4⟩ true []).scale.z⟩ }]) ∧
      (tagNum (normalizeUserData (Object3D.mk "bx"
          { threejscannones_type := some (.str "box") }
          ⟨4, 0, 0⟩ ⟨0, 0, 0, 1⟩ ⟨2, 3, 4⟩ true []).userData).threejscannones_type = some 2 →
        b.shapes = [{ shape := .sphere (Object3D.mk "bx"
          { threejscannones_type := some (.str "box") }
          ⟨4, 0, 0⟩ ⟨0, 0, 0, 1⟩ ⟨2, 3, 4⟩ true []).scale.x }])) :=
  ⟨rfl, collider_body_at_world_pose idTRS { world := {} } c2Scene rfl (by simp) [0]
    (Object3D.mk "bx" { threejscannones_type := some (.str "box") }
      ⟨4, 0, 0⟩ ⟨0, 0, 0, 1⟩ ⟨2, 3, 4⟩ true [])
    rfl rfl⟩

/-! ## Claim C6 — custom-constraint dispatch -/

theorem mapGet_mapSet [DecidableEq κ] (k : κ) (v : α) :
    ∀ l : List (κ × α), mapGet k (mapSet k v l) = some v
  | [] => by simp [mapGet, mapSet]
  | e :: rest => by
    by_cases he : e.1 = k
    · simp [mapSet, mapGet, he]
    · simp [mapSet, mapGet, he, mapGet_mapSet k v rest]

theorem createCustomConstraint_noid (st : RigState) (o : Object3D) (A B : Option Body)
    (hcid : o.userData.threejscannones_customId = none) :
    createCustomConstraint st o A B = .error "A custom constraint MUST have an id..." := by
  simp only [createCustomConstraint]
  split
  · rfl
  · rename_i customID heq
    rw [hcid] at heq
    exact absurd heq (by simp)

theorem createCustomConstraint_emptyid (st : RigState) (o : Object3D) (A B : Option Body)
    (hcid : o.userData.threejscannones_customId = some "") :
    createCustomConstraint st o A B = .error "A custom constraint MUST have an id..." := by
  simp only [createCustomConstraint]
  split
  · rename_i heq
    rw [hcid] at heq
  · rename_i customID heq
    rw [hcid] at heq
    obtain rfl := Option.some.inj heq
    rw [if_pos rfl]

theorem createCustomConstraint_nofac (st : RigState) (o : Object3D) (A B : Option Body)
    (cid : String)
    (hcid : o.userData.threejscannones_customId = some cid)
    (hemp : cid ≠ "")
    (hfac : mapGet cid st.customId2ConstraintFactory = none) :
    createCustomConstraint st o A B = .error ("Custom constraint with id " ++ cid ++
      " not found. Dis you forgot to call registerCustomConstraint?") := by
  simp only [createCustomConstraint]
  split
  · rename_i heq
    rw [hcid] at heq
    exact absurd heq (by simp)
  · rename_i customID heq
    rw [hcid] at heq
    obtain rfl := Option.some.inj heq
    rw [if_neg hemp, hfac]

theorem createCustomConstraint_ok (st : RigState) (o : Object3D) (A B : Option Body)
    (cid : String) (fac : ConstraintFactory)
    (hcid : o.userData.threejscannones_customId = some cid)
    (hemp : cid ≠ "")
    (hfac : mapGet cid st.customId2ConstraintFactory = some fac) :
    createCustomConstraint st o A B = .ok { st with
      customConstraints := mapSet o.userData.name
        (fac { obj := o
               collisionGroup := o.userData.threejscannones_cgroup.getD (.num 1)
               collisionMask := o.userData.threejscannones_cwith.getD (.num 1)
               A := A
               B := B })
        st.customConstraints } := by
  simp only [createCustomConstraint]
  split
  · rename_i heq
    rw [hcid] at heq
    exact absurd heq (by simp)
  · rename_i customID heq
    rw [hcid] at heq
    obtain rfl := Option.some.inj heq
    rw [if_neg hemp, hfac]

/-- C6: rigging a custom-tagged node throws — aborting `rigScene` — exactly
when the node carries no usable identifier (absent, or the empty string the
JavaScript falsy check conflates with absence) or no factory is registered
under it; otherwise `rigScene` succeeds, the factory's return value is
stored keyed by the node's `userData.name`, and `getCustomConstraint` on
that name retrieves exactly the stored value. -/
theorem custom_constraint_dispatch :
    (∀ (ctx : TRS) (st : RigState) (nm : String) (ud : UserData)
       (pos : Vector3) (q : Quaternion) (scl : Vector3) (vis : Bool),
      tagNum (normalizeUserData ud).threejscannones_type = some 10 →
      ((∃ e, rigScene ctx st (.mk nm ud pos q scl vis []) = .error e) ↔
        (match ud.threejscannones_customId with
         | none => True
         | some cid => cid = "" ∨ mapGet cid st.customId2ConstraintFactory = none))) ∧
    (∀ (ctx : TRS) (st : RigState) (nm : String) (ud : UserData)
       (pos : Vector3) (q : Quaternion) (scl : Vector3) (vis : Bool)
       (cid : String) (fac : ConstraintFactory),
      tagNum (normalizeUserData ud).threejscannones_type = some 10 →
      ud.threejscannones_customId = some cid →
      cid ≠ "" →
      mapGet cid st.customId2ConstraintFactory = some fac →
      ∃ st2, rigScene ctx st (.mk nm ud pos q scl vis []) =
          .ok (.mk nm (normalizeUserData ud) pos q scl vis [], st2) ∧
        st2.customConstraints = mapSet ud.name
          (fac { obj := .mk nm (normalizeUserData ud) pos q scl vis []
                 collisionGroup := (normalizeUserData ud).threejscannones_cgroup.getD (.num 1)
                 collisionMask := (normalizeUserData ud).threejscannones_cwith.getD (.num 1)
                 A := getBodyByName st ud.threejscannones_A
                 B := getBodyByName st ud.threejscannones_B })
          st.customConstraints ∧
        ∀ nmS, ud.name = some nmS →
          getCustomConstraint st2 nmS = some
            (fac { obj := .mk nm (normalizeUserData ud) pos q scl vis []
                   collisionGroup := (normalizeUserData ud).threejscannones_cgroup.getD (.num 1)
                   collisionMask := (normalizeUserData ud).threejscannones_cwith.getD (.num 1)
                   A := getBodyByName st ud.threejscannones_A
                   B := getBodyByName st ud.threejscannones_B })) := by
  have hpb : ∀ (ctx : TRS) (st : RigState) (ud : UserData)
      (pos : Vector3) (q : Quaternion) (scl : Vector3) (vis : Bool),
      tagNum (normalizeUserData ud).threejscannones_type = some 10 →
      pass1Body st [] (normalizeUserData ud) (composeLocal ctx pos q scl) scl vis []
        = (vis, st) := by
    intro ctx st ud pos q scl vis htag
    unfold pass1Body
    rw [htag]
    simp
  have hscene : ∀ (ctx : TRS) (st : RigState) (nm : String) (ud : UserData)
      (pos : Vector3) (q : Quaternion) (scl : Vector3) (vis : Bool),
      tagNum (normalizeUserData ud).threejscannones_type = some 10 →
      rigScene ctx st (.mk nm ud pos q scl vis []) =
        match pass2Step ctx [] (.mk nm (normalizeUserData ud) pos q scl vis []) st with
        | .error e => .error e
        | .ok st1 => .ok (.mk nm (normalizeUserData ud) pos q scl vis [], st1) := by
    intro ctx st nm ud pos q scl vis htag
    have hp1snd : (rigPass1 ctx [] st (Object3D.mk nm ud pos q scl vis [])).2 = st := by
      rw [rigPass1_snd_eq, hpb ctx st ud pos q scl vis htag]
      rfl
    have hp1fst : (rigPass1 ctx [] st (Object3D.mk nm ud pos q scl vis [])).1 =
        Object3D.mk nm (normalizeUserData ud) pos q scl vis [] := by
      rw [rigPass1_fst_eq, hpb ctx st ud pos q scl vis htag]
      rfl
    show (match rigPass2 ctx []
          (rigPass1 ctx [] st (Object3D.mk nm ud pos q scl vis [])).2
          (rigPass1 ctx [] st (Object3D.mk nm ud pos q scl vis [])).1 with
        | Except.error e => Except.error e
        | Except.ok st2 =>
            Except.ok ((rigPass1 ctx [] st (Object3D.mk nm ud pos q scl vis [])).1, st2))
      = _
    rw [hp1snd, hp1fst]
    have hr2 : rigPass2 ctx [] st (Object3D.mk nm (normalizeUserData ud) pos q scl vis []) =
        match pass2Step ctx [] (Object3D.mk nm (normalizeUserData ud) pos q scl vis []) st with
        | .error e => .error e
        | .ok st1 => .ok st1 := by
      show (match pass2Step ctx []
            (Object3D.mk nm (normalizeUserData ud) pos q scl vis []) st with
          | Except.error e => Except.error e
          | Except.ok st1 => rigPass2List (composeLocal ctx pos q scl) [] 0 st1 []) = _
      cases pass2Step ctx [] (Object3D.mk nm (normalizeUserData ud) pos q scl vis []) st <;> rfl
    rw [hr2]
    cases pass2Step ctx [] (Object3D.mk nm (normalizeUserData ud) pos q scl vis []) st <;> rfl
  have hstep : ∀ (ctx : TRS) (st : RigState) (nm : String) (ud : UserData)
      (pos : Vector3) (q : Quaternion) (scl : Vector3) (vis : Bool),
      tagNum (normalizeUserData ud).threejscannones_type = some 10 →
      pass2Step ctx [] (.mk nm (normalizeUserData ud) pos q scl vis []) st =
        createCustomConstraint st (.mk nm (normalizeUserData ud) pos q scl vis [])
          (getBodyByName st ud.threejscannones_A)
          (getBodyByName st ud.threejscannones_B) := by
    intro ctx st nm ud pos q scl vis htag
    have htagN : tagNum (Object3D.mk nm (normalizeUserData ud) pos q scl vis
        []).userData.threejscannones_type = some 10 := htag
    simp only [pass2Step]
    rw [htagN]
    rfl
  constructor
  · intro ctx st nm ud pos q scl vis htag
    rw [hscene ctx st nm ud pos q scl vis htag, hstep ctx st nm ud pos q scl vis htag]
    cases hcid : ud.threejscannones_customId with
    | none =>
      have hcidN : (Object3D.mk nm (normalizeUserData ud) pos q scl vis
          []).userData.threejscannones_customId = none := hcid
      rw [createCustomConstraint_noid st _ _ _ hcidN]
      simp
    | some cid =>
      have hcidN : (Object3D.mk nm (normalizeUserData ud) pos q scl vis
          []).userData.threejscannones_customId = some cid := hcid
      by_cases hemp : cid = ""
      · subst hemp
        rw [createCustomConstraint_emptyid st _ _ _ hcidN]
        simp
      · cases hfac : mapGet cid st.customId2ConstraintFactory with
        | none =>
          rw [createCustomConstraint_nofac st _ _ _ cid hcidN hemp hfac]
          simp [hemp, hfac]
        | some fac =>
          rw [createCustomConstraint_ok st _ _ _ cid fac hcidN hemp hfac]
          simp [hemp, hfac]
  · intro ctx st nm ud pos q scl vis cid fac htag hcid hemp hfac
    rw [hscene ctx st nm ud pos q scl vis htag, hstep ctx st nm ud pos q scl vis htag]
    have hcidN : (Object3D.mk nm (normalizeUserData ud) pos q scl vis
        []).userData.threejscannones_customId = some cid := hcid
    rw [createCustomConstraint_ok st _ _ _ cid fac hcidN hemp hfac]
    refine ⟨_, rfl, rfl, ?_⟩
    intro nmS hnm
    have hnmN : (normalizeUserData ud).name = some nmS := hnm
    show mapGet (some nmS) (mapSet (Object3D.mk nm (normalizeUserData ud) pos q scl vis
      []).userData.name _ st.customConstraints) = _
    have huN : (Object3D.mk nm (normalizeUserData ud) pos q scl vis
        []).userData.name = some nmS := hnm
    rw [huN, mapGet_mapSet]
    rfl

/-- The factory, session and nodes for the C6 witness. -/
def facC6 : ConstraintFactory := fun _ => ⟨7⟩

def stC6 : RigState := { world := {}, customId2ConstraintFactory := [("glue", facC6)] }

def udC6 : UserData :=
  { name := some "C", threejscannones_type := some (.str "custom")
    threejscannones_customId := some "glue" }

def udC6bad : UserData :=
  { threejscannones_type := some (.num 10), threejscannones_customId := some "missing" }

theorem custom_constraint_dispatch_witness :
    (tagNum (normalizeUserData udC6bad).threejscannones_type = some 10 ∧
     tagNum (normalizeUserData udC6).threejscannones_type = some 10 ∧
     udC6.threejscannones_customId = some "glue" ∧ "glue" ≠ "" ∧
     mapGet "glue" stC6.customId2ConstraintFactory = some facC6) ∧
    ((∃ e, rigScene idTRS stC6 (.mk "b" udC6bad vzero qid ⟨1, 1, 1⟩ true []) = .error e) ↔
      (match udC6bad.threejscannones_customId with
       | none => True
       | some cid => cid = "" ∨ mapGet cid stC6.customId2ConstraintFactory = none)) ∧
    (∃ st2, rigScene idTRS stC6 (.mk "c" udC6 vzero qid ⟨1, 1, 1⟩ true []) =
        .ok (.mk "c" (normalizeUserData udC6) vzero qid ⟨1, 1, 1⟩ true [], st2) ∧
      st2.customConstraints = mapSet udC6.name
        (facC6 { obj := .mk "c" (normalizeUserData udC6) vzero qid ⟨1, 1, 1⟩ true []
                 collisionGroup := (normalizeUserData udC6).threejscannones_cgroup.getD (.num 1)
                 collisionMask := (normalizeUserData udC6).threejscannones_cwith.getD (.num 1)
                 A := getBodyByName stC6 udC6.threejscannones_A
                 B := getBodyByName stC6 udC6.threejscannones_B })
        stC6.customConstraints ∧
      ∀ nmS, udC6.name = some nmS →
        getCustomConstraint st2 nmS = some
          (facC6 { obj := .mk "c" (normalizeUserData udC6) vzero qid ⟨1, 1, 1⟩ true []
                   collisionGroup := (normalizeUserData udC6).threejscannones_cgroup.getD (.num 1)
                   collisionMask := (normalizeUserData udC6).threejscannones_cwith.getD (.num 1)
                   A := getBodyByName stC6 udC6.threejscannones_A
                   B := getBodyByName stC6 udC6.threejscannones_B })) :=
  ⟨⟨rfl, rfl, rfl, by simp, rfl⟩,
   custom_constraint_dispatch.1 idTRS stC6 "b" udC6bad vzero qid ⟨1, 1, 1⟩ true rfl,
   custom_constraint_dispatch.2 idTRS stC6 "c" udC6 vzero qid ⟨1, 1, 1⟩ true "glue" facC6
     rfl rfl (by simp) rfl⟩

/-! ## Claim C1 — the session tracks its registrations and `clear` reverses
them.  `ownCons`/`ownBods` are the engine-side footprint of one tracked
constraint, in the order its creator registered it with the world. -/

/-- The engine constraints a tracked session constraint owns. -/
def ownCons : RigConstraint → List CCon
  | .joint _ _ c => [c]
  | .sync _ _ _ _ => []
  | .cable _ _ tube la lb => tube.constraints ++ la.toList ++ lb.toList

/-- The engine bodies a tracked session constraint owns. -/
def ownBods : RigConstraint → List Body
  | .joint _ _ _ => []
  | .sync _ _ _ _ => []
  | .cable _ _ tube _ _ => tube.bodies

theorem removeFirst_append (p : α → Bool) (l1 l2 : List α)
    (h : ∀ x ∈ l1, p x = false) :
    removeFirst p (l1 ++ l2) = l1 ++ removeFirst p l2 := by
  induction l1 with
  | nil => rfl
  | cons a t ih =>
    have ha := h a (List.mem_cons_self a t)
    show removeFirst p (a :: (t ++ l2)) = a :: (t ++ removeFirst p l2)
    simp only [removeFirst, ha, Bool.false_eq_true, if_false]
    rw [ih fun x hx => h x (List.mem_cons_of_mem a hx)]

theorem removeFirst_cons_self (p : α → Bool) (a : α) (l : List α) (ha : p a = true) :
    removeFirst p (a :: l) = l := by
  simp only [removeFirst, ha, if_true]

/-- Removing a block of uniquely-identified constraints in its own order
peels it off the end of the registration list and leaves bodies alone. -/
theorem foldl_removeConstraints : ∀ (cs : List CCon) (X : List CCon) (w : World),
    w.constraints = X ++ cs →
    (cs.map CCon.id).Nodup →
    (∀ c ∈ cs, ∀ x ∈ X, x.id ≠ c.id) →
    cs.foldl (fun acc c => acc.removeConstraintId c.id) w =
      { bodies := w.bodies, constraints := X }
  | [], X, w, hw, _, _ => by
    rw [List.append_nil] at hw
    show w = _
    rw [← hw]
  | c :: rest, X, w, hw, hnd, hfresh => by
    rw [List.map_cons, List.nodup_cons] at hnd
    have h1 : w.removeConstraintId c.id = { bodies := w.bodies, constraints := X ++ rest } := by
      show ({ w with constraints := removeFirst (fun x => x.id == c.id) w.constraints } : World)
        = _
      rw [hw, removeFirst_append _ X _ (fun x hx => by
        have := hfresh c (List.mem_cons_self c rest) x hx
        simp [this]),
        removeFirst_cons_self _ _ _ (by simp)]
    show rest.foldl _ (w.removeConstraintId c.id) = _
    rw [h1]
    exact foldl_removeConstraints rest X { bodies := w.bodies, constraints := X ++ rest } rfl
      hnd.2
      (fun x hx y hy => by
        have hne : x.id ∉ rest.map CCon.id → True := fun _ => trivial
        exact hfresh x (List.mem_cons_of_mem c hx) y hy)

/-- Removing a block of uniquely-identified bodies peels it off the end of
the body list and leaves constraints alone. -/
theorem foldl_removeBodies : ∀ (bs : List Body) (Y : List Body) (w : World),
    w.bodies = Y ++ bs →
    (bs.map Body.id).Nodup →
    (∀ b ∈ bs, ∀ y ∈ Y, y.id ≠ b.id) →
    bs.foldl (fun acc b => acc.removeBodyId b.id) w =
      { bodies := Y, constraints := w.constraints }
  | [], Y, w, hw, _, _ => by
    rw [List.append_nil] at hw
    show w = _
    rw [← hw]
  | b :: rest, Y, w, hw, hnd, hfresh => by
    rw [List.map_cons, List.nodup_cons] at hnd
    have h1 : w.removeBodyId b.id = { bodies := Y ++ rest, constraints := w.constraints } := by
      show ({ w with bodies := removeFirst (fun x => x.id == b.id) w.bodies } : World) = _
      rw [hw, removeFirst_append _ Y _ (fun x hx => by
        have := hfresh b (List.mem_cons_self b rest) x hx
        simp [this]),
        removeFirst_cons_self _ _ _ (by simp)]
    show rest.foldl _ (w.removeBodyId b.id) = _
    rw [h1]
    exact foldl_removeBodies rest Y { bodies := Y ++ rest, constraints := w.constraints } rfl
      hnd.2
      (fun x hx y hy => hfresh x (List.mem_cons_of_mem b hx) y hy)

theorem mem_range_add {a n x : Nat} (h : x ∈ (List.range n).map (fun i => a + i)) :
    a ≤ x ∧ x < a + n := by
  obtain ⟨i, hi, rfl⟩ := List.mem_map.mp h
  rw [List.mem_range] at hi
  omega

theorem range_add_nodup (a n : Nat) : ((List.range n).map (fun i => a + i)).Nodup :=
  (List.nodup_range n).map (fun i j hij => by omega)

theorem tube_body_ids (L : ℚ) (res : Nat) (r : ℚ) (rr : Nat) (s : Nat) :
    (mkCannonTubeRig L res r rr s).1.bodies.map Body.id =
      (List.range res).map (fun i => s + i) := by
  show ((List.range res).map fun i => ({ dBody with id := s + i } : Body)).map Body.id = _
  rw [List.map_map]
  rfl

theorem tube_con_ids (L : ℚ) (res : Nat) (r : ℚ) (rr : Nat) (s : Nat) :
    (mkCannonTubeRig L res r rr s).1.constraints.map CCon.id =
      (List.range (res - 1)).map (fun i => s + res + i) := by
  show ((List.range (res - 1)).map fun i =>
    ({ id := s + res + i, kind := .pointToPoint,
       bodyA := s + i, bodyB := s + i + 1 } : CCon)).map CCon.id = _
  rw [List.map_map]
  rfl

/-- The pass-2 state evolution: the node→body index is untouched, the
session constraint list grows by its tracked entries, and the world grows
by exactly those entries' own registrations, with fresh pairwise distinct
ids drawn from the id counter. -/
def Pass2Post (st st' : RigState) : Prop :=
  st'.obj2bod = st.obj2bod ∧
  st.nextId ≤ st'.nextId ∧
  ∃ newCs : List RigConstraint,
    st'.constraints = st.constraints ++ newCs ∧
    st'.world.constraints = st.world.constraints ++ newCs.bind ownCons ∧
    st'.world.bodies = st.world.bodies ++ newCs.bind ownBods ∧
    (∀ c ∈ newCs.bind ownCons, st.nextId ≤ c.id ∧ c.id < st'.nextId) ∧
    (∀ b ∈ newCs.bind ownBods, st.nextId ≤ b.id ∧ b.id < st'.nextId) ∧
    ((newCs.bind ownCons).map CCon.id).Nodup ∧
    ((newCs.bind ownBods).map Body.id).Nodup

theorem bind_append_own (l1 l2 : List α) (f : α → List β) :
    (l1 ++ l2).bind f = l1.bind f ++ l2.bind f := by
  induction l1 with
  | nil => rfl
  | cons a t ih =>
    show f a ++ (t ++ l2).bind f = (f a ++ t.bind f) ++ l2.bind f
    rw [ih, List.append_assoc]

theorem pass2PostRefl (st : RigState) : Pass2Post st st :=
  ⟨rfl, Nat.le_refl _, [], by simp, by simp, by simp, by simp, by simp, by simp, by simp⟩

theorem pass2PostTrans {s1 s2 s3 : RigState} (a : Pass2Post s1 s2) (b : Pass2Post s2 s3) :
    Pass2Post s1 s3 := by
  obtain ⟨aob, amono, n1, acs, awc, awb, abc, abb, andc, andb⟩ := a
  obtain ⟨bob, bmono, n2, bcs, bwc, bwb, bbc, bbb, bndc, bndb⟩ := b
  refine ⟨bob.trans aob, Nat.le_trans amono bmono, n1 ++ n2, ?_, ?_, ?_, ?_, ?_, ?_, ?_⟩
  · rw [bcs, acs, List.append_assoc]
  · rw [bwc, awc, bind_append_own, List.append_assoc]
  · rw [bwb, awb, bind_append_own, List.append_assoc]
  · intro c hc
    rw [bind_append_own] at hc
    rcases List.mem_append.mp hc with h | h
    · have := abc c h
      omega
    · have := bbc c h
      omega
  · intro x hx
    rw [bind_append_own] at hx
    rcases List.mem_append.mp hx with h | h
    · have := abb x h
      omega
    · have := bbb x h
      omega
  · rw [bind_append_own, List.map_append]
    refine nodup_append_of_bound s2.nextId andc bndc ?_ ?_
    · intro a ha
      obtain ⟨c, hc, rfl⟩ := List.mem_map.mp ha
      exact (abc c hc).2
    · intro a ha
      obtain ⟨c, hc, rfl⟩ := List.mem_map.mp ha
      exact (bbc c hc).1
  · rw [bind_append_own, List.map_append]
    refine nodup_append_of_bound s2.nextId andb bndb ?_ ?_
    · intro a ha
      obtain ⟨c, hc, rfl⟩ := List.mem_map.mp ha
      exact (abb c hc).2
    · intro a ha
      obtain ⟨c, hc, rfl⟩ := List.mem_map.mp ha
      exact (bbb c hc).1

theorem bind_singleton_own (x : α) (f : α → List β) : [x].bind f = f x := by
  show f x ++ [] = f x
  rw [List.append_nil]

/-- All four engine-joint creators are `addConstraintIn` of a fresh-id
constraint followed by tracking it as a `.joint`. -/
theorem pass2Post_addJoint (st : RigState) (path : List Nat) (onm : Option String)
    (c : CCon) (hc : c.id = st.nextId) :
    Pass2Post st { (addConstraintIn st c).2 with
      constraints := (addConstraintIn st c).2.constraints ++ [.joint path onm c] } := by
  refine ⟨rfl, Nat.le_succ _, [.joint path onm c], rfl, ?_, ?_, ?_, ?_, ?_, ?_⟩
  · rw [bind_singleton_own]
    rfl
  · rw [bind_singleton_own]
    have ho : ownBods (RigConstraint.joint path onm c) = [] := rfl
    rw [ho, List.append_nil]
    rfl
  · intro x hx
    rw [bind_singleton_own] at hx
    have hx2 : x ∈ [c] := hx
    obtain rfl := List.mem_singleton.mp hx2
    constructor
    · rw [hc]
    · show x.id < st.nextId + 1
      rw [hc]
      omega
  · intro x hx
    rw [bind_singleton_own] at hx
    have hx2 : x ∈ ([] : List Body) := hx
    simp at hx2
  · rw [bind_singleton_own]
    have ho : ownCons (RigConstraint.joint path onm c) = [c] := rfl
    rw [ho]
    simp
  · rw [bind_singleton_own]
    have ho : ownBods (RigConstraint.joint path onm c) = [] := rfl
    rw [ho]
    simp

theorem createSyncBetween_post (st : RigState) (path : List Nat) (o : Object3D)
    (body : Option Body) : Pass2Post st (createSyncBetween st path o body) := by
  cases body with
  | none =>
    exact ⟨rfl, Nat.le_refl _, [], by simp [createSyncBetween], by simp [createSyncBetween],
      by simp [createSyncBetween], by simp, by simp, by simp, by simp⟩
  | some b =>
    refine ⟨rfl, Nat.le_refl _, [.sync path o.userData.name b {}], rfl, ?_, ?_, ?_, ?_, ?_, ?_⟩
    · rw [bind_singleton_own]
      have ho : ownCons (RigConstraint.sync path o.userData.name b {}) = [] := rfl
      rw [ho, List.append_nil]
      rfl
    · rw [bind_singleton_own]
      have ho : ownBods (RigConstraint.sync path o.userData.name b {}) = [] := rfl
      rw [ho, List.append_nil]
      rfl
    · intro x hx
      rw [bind_singleton_own] at hx
      have hx2 : x ∈ ([] : List CCon) := hx
      simp at hx2
    · intro x hx
      rw [bind_singleton_own] at hx
      have hx2 : x ∈ ([] : List Body) := hx
      simp at hx2
    · rw [bind_singleton_own]
      have ho : ownCons (RigConstraint.sync path o.userData.name b {}) = [] := rfl
      rw [ho]
      simp
    · rw [bind_singleton_own]
      have ho : ownBods (RigConstraint.sync path o.userData.name b {}) = [] := rfl
      rw [ho]
      simp

theorem createCustomConstraint_post (st : RigState) (o : Object3D) (A B : Option Body)
    (st' : RigState) (h : createCustomConstraint st o A B = .ok st') : Pass2Post st st' := by
  simp only [createCustomConstraint] at h
  split at h
  · exact absurd h (by simp)
  · split at h
    · exact absurd h (by simp)
    · split at h
      · exact absurd h (by simp)
      · obtain rfl := Except.ok.inj h
        exact ⟨rfl, Nat.le_refl _, [], by simp, by simp, by simp, by simp, by simp,
          by simp, by simp⟩

/-- The tube `createCable` builds: `mkCannonTubeRig` output, repositioned
when the node really had two children (the `copy`/`lookAt` step). -/
def tubeOf (st : RigState) (res : Vector3 × Vector3 × ℚ × Bool) : CannonTubeRig :=
  let tube0 := (mkCannonTubeRig res.2.2.1 20 (1 / 10) 8 st.nextId).1
  if res.2.2.2 then { tube0 with position := res.1, lookTarget := some res.2.1 }
  else tube0

/-- The point-to-point lock `lockXTo` builds from chain end `x` to `t`. -/
def lockCon (x t : Body) (i : Nat) : CCon :=
  { id := i, kind := .pointToPoint, bodyA := x.id, bodyB := t.id
    pivotA := vzero, pivotB := pointToLocalFrame t x.position
    collideConnected := false }

theorem tubeOf_cons (st : RigState) (res : Vector3 × Vector3 × ℚ × Bool) :
    (tubeOf st res).constraints =
      (mkCannonTubeRig res.2.2.1 20 (1 / 10) 8 st.nextId).1.constraints := by
  unfold tubeOf
  cases res.2.2.2 <;> rfl

theorem tubeOf_bods (st : RigState) (res : Vector3 × Vector3 × ℚ × Bool) :
    (tubeOf st res).bodies =
      (mkCannonTubeRig res.2.2.1 20 (1 / 10) 8 st.nextId).1.bodies := by
  unfold tubeOf
  cases res.2.2.2 <;> rfl

theorem tube_con_mem_bounds (L : ℚ) (res : Nat) (r : ℚ) (rr s : Nat) :
    ∀ c ∈ (mkCannonTubeRig L res r rr s).1.constraints,
      s + res ≤ c.id ∧ c.id < s + res + (res - 1) := by
  intro c hc
  have hm : c.id ∈ (mkCannonTubeRig L res r rr s).1.constraints.map CCon.id :=
    List.mem_map_of_mem _ hc
  rw [tube_con_ids] at hm
  have h2 := mem_range_add hm
  omega

theorem tube_body_mem_bounds (L : ℚ) (res : Nat) (r : ℚ) (rr s : Nat) :
    ∀ b ∈ (mkCannonTubeRig L res r rr s).1.bodies,
      s ≤ b.id ∧ b.id < s + res := by
  intro b hb
  have hm : b.id ∈ (mkCannonTubeRig L res r rr s).1.bodies.map Body.id :=
    List.mem_map_of_mem _ hb
  rw [tube_body_ids] at hm
  exact mem_range_add hm

theorem nodup_range_one (s n a : Nat) (ha : a = s + n) :
    ((List.range n).map (fun i => s + i) ++ [a]).Nodup := by
  refine nodup_append_of_bound (s + n) (range_add_nodup s n) (by simp) ?_ ?_
  · intro x hx
    exact (mem_range_add hx).2
  · intro x hx
    rw [List.mem_singleton] at hx
    omega

theorem nodup_range_two (s n a b : Nat) (ha : a = s + n) (hb : b = s + n + 1) :
    (((List.range n).map (fun i => s + i) ++ [a]) ++ [b]).Nodup := by
  refine nodup_append_of_bound (s + n + 1) (nodup_range_one s n a ha) (by simp) ?_ ?_
  · intro x hx
    rcases List.mem_append.mp hx with h | h
    · have := (mem_range_add h).2
      omega
    · rw [List.mem_singleton] at h
      omega
  · intro x hx
    rw [List.mem_singleton] at hx
    omega

/-- `Pass2Post` for a state that appended one cable entry whose tube and
locks carry fresh distinct ids. -/
theorem pass2Post_cable_shape (st st' : RigState) (path : List Nat)
    (onm : Option String) (tb : CannonTubeRig) (la lb : Option CCon)
    (hob : st'.obj2bod = st.obj2bod)
    (hcs : st'.constraints = st.constraints ++ [.cable path onm tb la lb])
    (hwc : st'.world.constraints =
      st.world.constraints ++ (tb.constraints ++ la.toList ++ lb.toList))
    (hwb : st'.world.bodies = st.world.bodies ++ tb.bodies)
    (hmono : st.nextId ≤ st'.nextId)
    (hTC : ∀ c ∈ tb.constraints, st.nextId ≤ c.id ∧ c.id < st'.nextId)
    (hTB : ∀ b ∈ tb.bodies, st.nextId ≤ b.id ∧ b.id < st'.nextId)
    (hLA : ∀ c ∈ la.toList, st.nextId ≤ c.id ∧ c.id < st'.nextId)
    (hLB : ∀ c ∈ lb.toList, st.nextId ≤ c.id ∧ c.id < st'.nextId)
    (hndC : (((tb.constraints ++ la.toList) ++ lb.toList).map CCon.id).Nodup)
    (hndB : (tb.bodies.map Body.id).Nodup) :
    Pass2Post st st' := by
  refine ⟨hob, hmono, [.cable path onm tb la lb], hcs, ?_, ?_, ?_, ?_, ?_, ?_⟩
  · rw [hwc, bind_singleton_own]
    rfl
  · rw [hwb, bind_singleton_own]
    rfl
  · intro c hc
    rw [bind_singleton_own] at hc
    have hc2 : c ∈ (tb.constraints ++ la.toList) ++ lb.toList := hc
    rcases List.mem_append.mp hc2 with h | h
    · rcases List.mem_append.mp h with h2 | h2
      · exact hTC c h2
      · exact hLA c h2
    · exact hLB c h
  · intro b hb
    rw [bind_singleton_own] at hb
    exact hTB b hb
  · rw [bind_singleton_own]
    exact hndC
  · rw [bind_singleton_own]
    exact hndB

theorem lockCon_id (x t : Body) (i : Nat) : (lockCon x t i).id = i := rfl

/-- The state evolution of `createCable` past its scratch-register read,
with the anchor computation abstracted into `res`. -/
theorem cable_post_core (st : RigState) (path : List Nat) (o : Object3D)
    (stickToA stickToB : Option Body) (res : Vector3 × Vector3 × ℚ × Bool) :
    Pass2Post st (
      let (tube0, nid) := mkCannonTubeRig res.2.2.1 20 (1 / 10) 8 st.nextId
      let tube := if res.2.2.2 then { tube0 with position := res.1, lookTarget := some res.2.1 }
                  else tube0
      let st1 := { st with vec := res.1, vec2 := res.2.1, nextId := nid
                           world := tube.addToPhysicalWorld st.world }
      let (la, st2) :=
        match stickToA with
        | some t => lockXTo st1 tube.head (some t)
        | none => (none, st1)
      let (lb, st3) :=
        match stickToB with
        | some t => lockXTo st2 tube.tail (some t)
        | none => (none, st2)
      { st3 with constraints := st3.constraints ++ [.cable path o.userData.name tube la lb] }) := by
  cases stickToA with
  | none =>
    cases stickToB with
    | none =>
      refine pass2Post_cable_shape st _ path o.userData.name (tubeOf st res) none none
        rfl rfl ?_ rfl ?_ ?_ ?_ (by intro c hc; simp at hc) (by intro c hc; simp at hc) ?_ ?_
      · show st.world.constraints ++ (tubeOf st res).constraints =
          st.world.constraints ++ (((tubeOf st res).constraints ++ []) ++ [])
        rw [List.append_nil, List.append_nil]
      · show st.nextId ≤ st.nextId + 20 + (20 - 1)
        omega
      · intro c hc
        rw [tubeOf_cons] at hc
        have hb := tube_con_mem_bounds res.2.2.1 20 (1 / 10) 8 st.nextId c hc
        show st.nextId ≤ c.id ∧ c.id < st.nextId + 20 + (20 - 1)
        omega
      · intro b hb
        rw [tubeOf_bods] at hb
        have hb2 := tube_body_mem_bounds res.2.2.1 20 (1 / 10) 8 st.nextId b hb
        show st.nextId ≤ b.id ∧ b.id < st.nextId + 20 + (20 - 1)
        omega
      · show ((((tubeOf st res).constraints ++ []) ++ []).map CCon.id).Nodup
        rw [List.append_nil, List.append_nil, tubeOf_cons, tube_con_ids]
        exact range_add_nodup _ _
      · rw [tubeOf_bods, tube_body_ids]
        exact range_add_nodup _ _
    | some tb =>
      refine pass2Post_cable_shape st _ path o.userData.name (tubeOf st res) none
        (some (lockCon (tubeOf st res).tail tb (st.nextId + 20 + (20 - 1))))
        rfl rfl ?_ rfl ?_ ?_ ?_ (by intro c hc; simp at hc) ?_ ?_ ?_
      · show (st.world.constraints ++ (tubeOf st res).constraints) ++
            [lockCon (tubeOf st res).tail tb (st.nextId + 20 + (20 - 1))] =
          st.world.constraints ++ (((tubeOf st res).constraints ++ []) ++
            [lockCon (tubeOf st res).tail tb (st.nextId + 20 + (20 - 1))])
        rw [List.append_nil, List.append_assoc]
      · show st.nextId ≤ st.nextId + 20 + (20 - 1) + 1
        omega
      · intro c hc
        rw [tubeOf_cons] at hc
        have hb := tube_con_mem_bounds res.2.2.1 20 (1 / 10) 8 st.nextId c hc
        show st.nextId ≤ c.id ∧ c.id < st.nextId + 20 + (20 - 1) + 1
        omega
      · intro b hb
        rw [tubeOf_bods] at hb
        have hb2 := tube_body_mem_bounds res.2.2.1 20 (1 / 10) 8 st.nextId b hb
        show st.nextId ≤ b.id ∧ b.id < st.nextId + 20 + (20 - 1) + 1
        omega
      · intro c hc
        have hc2 : c ∈ [lockCon (tubeOf st res).tail tb (st.nextId + 20 + (20 - 1))] := hc
        obtain rfl := List.mem_singleton.mp hc2
        rw [lockCon_id]
        show st.nextId ≤ st.nextId + 20 + (20 - 1) ∧
          st.nextId + 20 + (20 - 1) < st.nextId + 20 + (20 - 1) + 1
        omega
      · show ((((tubeOf st res).constraints ++ []) ++
            [lockCon (tubeOf st res).tail tb (st.nextId + 20 + (20 - 1))]).map CCon.id).Nodup
        rw [List.append_nil, List.map_append, tubeOf_cons, tube_con_ids]
        rw [show [lockCon (tubeOf st res).tail tb (st.nextId + 20 + (20 - 1))].map CCon.id =
          [st.nextId + 20 + (20 - 1)] from rfl]
        exact nodup_range_one _ _ _ rfl
      · rw [tubeOf_bods, tube_body_ids]
        exact range_add_nodup _ _
  | some ta =>
    cases stickToB with
    | none =>
      refine pass2Post_cable_shape st _ path o.userData.name (tubeOf st res)
        (some (lockCon (tubeOf st res).head ta (st.nextId + 20 + (20 - 1)))) none
        rfl rfl ?_ rfl ?_ ?_ ?_ ?_ (by intro c hc; simp at hc) ?_ ?_
      · show (st.world.constraints ++ (tubeOf st res).constraints) ++
            [lockCon (tubeOf st res).head ta (st.nextId + 20 + (20 - 1))] =
          st.world.constraints ++ (((tubeOf st res).constraints ++
            [lockCon (tubeOf st res).head ta (st.nextId + 20 + (20 - 1))]) ++ [])
        rw [List.append_nil, List.append_assoc]
      · show st.nextId ≤ st.nextId + 20 + (20 - 1) + 1
        omega
      · intro c hc
        rw [tubeOf_cons] at hc
        have hb := tube_con_mem_bounds res.2.2.1 20 (1 / 10) 8 st.nextId c hc
        show st.nextId ≤ c.id ∧ c.id < st.nextId + 20 + (20 - 1) + 1
        omega
      · intro b hb
        rw [tubeOf_bods] at hb
        have hb2 := tube_body_mem_bounds res.2.2.1 20 (1 / 10) 8 st.nextId b hb
        show st.nextId ≤ b.id ∧ b.id < st.nextId + 20 + (20 - 1) + 1
        omega
      · intro c hc
        have hc2 : c ∈ [lockCon (tubeOf st res).head ta (st.nextId + 20 + (20 - 1))] := hc
        obtain rfl := List.mem_singleton.mp hc2
        rw [lockCon_id]
        show st.nextId ≤ st.nextId + 20 + (20 - 1) ∧
          st.nextId + 20 + (20 - 1) < st.nextId + 20 + (20 - 1) + 1
        omega
      · show ((((tubeOf st res).constraints ++
            [lockCon (tubeOf st res).head ta (st.nextId + 20 + (20 - 1))]) ++ []).map
              CCon.id).Nodup
        rw [List.append_nil, List.map_append, tubeOf_cons, tube_con_ids]
        rw [show [lockCon (tubeOf st res).head ta (st.nextId + 20 + (20 - 1))].map CCon.id =
          [st.nextId + 20 + (20 - 1)] from rfl]
        exact nodup_range_one _ _ _ rfl
      · rw [tubeOf_bods, tube_body_ids]
        exact range_add_nodup _ _
    | some tb =>
      refine pass2Post_cable_shape st _ path o.userData.name (tubeOf st res)
        (some (lockCon (tubeOf st res).head ta (st.nextId + 20 + (20 - 1))))
        (some (lockCon (tubeOf st res).tail tb (st.nextId + 20 + (20 - 1) + 1)))
        rfl rfl ?_ rfl ?_ ?_ ?_ ?_ ?_ ?_ ?_
      · show ((st.world.constraints ++ (tubeOf st res).constraints) ++
            [lockCon (tubeOf st res).head ta (st.nextId + 20 + (20 - 1))]) ++
            [lockCon (tubeOf st res).tail tb (st.nextId + 20 + (20 - 1) + 1)] =
          st.world.constraints ++ (((tubeOf st res).constraints ++
            [lockCon (tubeOf st res).head ta (st.nextId + 20 + (20 - 1))]) ++
            [lockCon (tubeOf st res).tail tb (st.nextId + 20 + (20 - 1) + 1)])
        rw [List.append_assoc, List.append_assoc, List.append_assoc]
      · show st.nextId ≤ st.nextId + 20 + (20 - 1) + 1 + 1
        omega
      · intro c hc
        rw [tubeOf_cons] at hc
        have hb := tube_con_mem_bounds res.2.2.1 20 (1 / 10) 8 st.nextId c hc
        show st.nextId ≤ c.id ∧ c.id < st.nextId + 20 + (20 - 1) + 1 + 1
        omega
      · intro b hb
        rw [tubeOf_bods] at hb
        have hb2 := tube_body_mem_bounds res.2.2.1 20 (1 / 10) 8 st.nextId b hb
        show st.nextId ≤ b.id ∧ b.id < st.nextId + 20 + (20 - 1) + 1 + 1
        omega
      · intro c hc
        have hc2 : c ∈ [lockCon (tubeOf st res).head ta (st.nextId + 20 + (20 - 1))] := hc
        obtain rfl := List.mem_singleton.mp hc2
        rw [lockCon_id]
        show st.nextId ≤ st.nextId + 20 + (20 - 1) ∧
          st.nextId + 20 + (20 - 1) < st.nextId + 20 + (20 - 1) + 1 + 1
        omega
      · intro c hc
        have hc2 : c ∈ [lockCon (tubeOf st res).tail tb (st.nextId + 20 + (20 - 1) + 1)] := hc
        obtain rfl := List.mem_singleton.mp hc2
        rw [lockCon_id]
        show st.nextId ≤ st.nextId + 20 + (20 - 1) + 1 ∧
          st.nextId + 20 + (20 - 1) + 1 < st.nextId + 20 + (20 - 1) + 1 + 1
        omega
      · show ((((tubeOf st res).constraints ++
            [lockCon (tubeOf st res).head ta (st.nextId + 20 + (20 - 1))]) ++
            [lockCon (tubeOf st res).tail tb (st.nextId + 20 + (20 - 1) + 1)]).map
              CCon.id).Nodup
        rw [List.map_append, List.map_append, tubeOf_cons, tube_con_ids]
        rw [show [lockCon (tubeOf st res).head ta (st.nextId + 20 + (20 - 1))].map CCon.id =
          [st.nextId + 20 + (20 - 1)] from rfl]
        rw [show [lockCon (tubeOf st res).tail tb (st.nextId + 20 + (20 - 1) + 1)].map CCon.id =
          [st.nextId + 20 + (20 - 1) + 1] from rfl]
        exact nodup_range_two _ _ _ _ rfl rfl
      · rw [tubeOf_bods, tube_body_ids]
        exact range_add_nodup _ _

theorem createCable_post (st : RigState) (nodeW : TRS) (path : List Nat) (o : Object3D)
    (A B : Option Body) : Pass2Post st (createCable st nodeW path o A B) :=
  cable_post_core st path o A B
    (match o.children with
     | c0 :: c1 :: _ =>
       ((worldOf nodeW c0).pos, applyTRS (worldOf nodeW c1) st.vec2,
        distSq (worldOf nodeW c0).pos (applyTRS (worldOf nodeW c1) st.vec2), true)
     | _ => (st.vec, st.vec2, (1 : ℚ), false))

/-- Every successful pass-2 node visit satisfies the pass-2 evolution. -/
theorem pass2Step_post (ctx : TRS) (path : List Nat) (o : Object3D) (st st' : RigState)
    (h : pass2Step ctx path o st = .ok st') : Pass2Post st st' := by
  simp only [pass2Step] at h
  split at h
  · -- dist
    split at h
    · obtain rfl := Except.ok.inj h
      exact pass2Post_addJoint st path o.userData.name _ rfl
    · exact absurd h (by simp)
  · -- point
    split at h
    · obtain rfl := Except.ok.inj h
      exact pass2Post_addJoint st path o.userData.name _ rfl
    · exact absurd h (by simp)
  · -- hinge
    split at h
    · obtain rfl := Except.ok.inj h
      exact pass2Post_addJoint st path o.userData.name _ rfl
    · exact absurd h (by simp)
  · -- lock
    split at h
    · obtain rfl := Except.ok.inj h
      exact pass2Post_addJoint st path o.userData.name _ rfl
    · exact absurd h (by simp)
  · -- sync
    obtain rfl := Except.ok.inj h
    exact createSyncBetween_post st path o _
  · -- cable
    obtain rfl := Except.ok.inj h
    exact createCable_post st _ path o _ _
  · -- custom
    exact createCustomConstraint_post st o _ _ st' h
  · -- anything else
    obtain rfl := Except.ok.inj h
    exact pass2PostRefl st

mutual
/-- A successful pass 2 over a node satisfies the pass-2 evolution. -/
theorem rigPass2_post : ∀ (o : Object3D) (ctx : TRS) (path : List Nat) (st st' : RigState),
    rigPass2 ctx path st o = .ok st' → Pass2Post st st' := by
  intro o ctx path st st' h
  obtain ⟨nm, ud, pos, q, scl, vis, ch⟩ := o
  have hunf : rigPass2 ctx path st (Object3D.mk nm ud pos q scl vis ch) =
      match pass2Step ctx path (Object3D.mk nm ud pos q scl vis ch) st with
      | .error e => .error e
      | .ok st1 => rigPass2List (composeLocal ctx pos q scl) path 0 st1 ch := rfl
  rw [hunf] at h
  cases hs : pass2Step ctx path (Object3D.mk nm ud pos q scl vis ch) st with
  | error e =>
    rw [hs] at h
    exact absurd h (by simp)
  | ok st1 =>
    rw [hs] at h
    exact pass2PostTrans (pass2Step_post ctx path _ st st1 hs)
      (rigPass2List_post ch (composeLocal ctx pos q scl) path 0 st1 st' h)

/-- A successful pass 2 over a child list satisfies the pass-2 evolution. -/
theorem rigPass2List_post : ∀ (l : List Object3D) (ctx : TRS) (path : List Nat)
    (i : Nat) (st st' : RigState),
    rigPass2List ctx path i st l = .ok st' → Pass2Post st st' := by
  intro l ctx path i st st' h
  cases l with
  | nil =>
    obtain rfl := Except.ok.inj h
    exact pass2PostRefl st
  | cons c rest =>
    have hunf : rigPass2List ctx path i st (c :: rest) =
        match rigPass2 ctx (path ++ [i]) st c with
        | .error e => .error e
        | .ok st1 => rigPass2List ctx path (i + 1) st1 rest := rfl
    rw [hunf] at h
    cases hs : rigPass2 ctx (path ++ [i]) st c with
    | error e =>
      rw [hs] at h
      exact absurd h (by simp)
    | ok st1 =>
      rw [hs] at h
      exact pass2PostTrans (rigPass2_post c ctx (path ++ [i]) st st1 hs)
        (rigPass2List_post rest ctx path (i + 1) st1 st' h)
end

/-- Removing a constraint whose id is fresh for the prefix removes exactly
its first occurrence. -/
theorem removeCon_unique (w : World) (c : CCon) (X Z : List CCon)
    (hw : w.constraints = X ++ c :: Z)
    (hX : ∀ x ∈ X, x.id ≠ c.id) :
    w.removeConstraintId c.id = { bodies := w.bodies, constraints := X ++ Z } := by
  show ({ w with constraints := removeFirst (fun x => x.id == c.id) w.constraints } : World)
    = _
  rw [hw, removeFirst_append _ X _ (fun x hx => by simp [hX x hx]),
      removeFirst_cons_self _ _ _ (by simp)]

/-- `removeFrom` of one tracked constraint peels exactly its own block off
the end of the world, in its own order, given fresh distinct ids. -/
theorem removeFrom_block (r : RigConstraint) (w : World) (X : List CCon) (Y : List Body)
    (hwc : w.constraints = X ++ ownCons r)
    (hwb : w.bodies = Y ++ ownBods r)
    (hndC : ((ownCons r).map CCon.id).Nodup)
    (hndB : ((ownBods r).map Body.id).Nodup)
    (hfC : ∀ c ∈ ownCons r, ∀ x ∈ X, x.id ≠ c.id)
    (hfB : ∀ b ∈ ownBods r, ∀ y ∈ Y, y.id ≠ b.id) :
    r.removeFrom w = { bodies := Y, constraints := X } := by
  cases r with
  | joint p nm c =>
    have hb : w.bodies = Y := by
      rw [hwb]
      have ho : ownBods (RigConstraint.joint p nm c) = [] := rfl
      rw [ho, List.append_nil]
    show w.removeConstraintId c.id = _
    rw [removeCon_unique w c X [] hwc (fun x hx => hfC c (by simp [ownCons]) x hx),
      List.append_nil, hb]
  | sync p nm b sst =>
    obtain ⟨wb, wc⟩ := w
    have hc2 : wc = X := by
      have h2 : wc = X ++ ownCons (RigConstraint.sync p nm b sst) := hwc
      rw [show ownCons (RigConstraint.sync p nm b sst) = [] from rfl, List.append_nil] at h2
      exact h2
    have hb2 : wb = Y := by
      have h2 : wb = Y ++ ownBods (RigConstraint.sync p nm b sst) := hwb
      rw [show ownBods (RigConstraint.sync p nm b sst) = [] from rfl, List.append_nil] at h2
      exact h2
    show World.mk wb wc = _
    rw [hc2, hb2]
  | cable p nm tube la lb =>
    have hwb2 : w.bodies = Y ++ tube.bodies := hwb
    have hfB2 : ∀ b ∈ tube.bodies, ∀ y ∈ Y, y.id ≠ b.id := hfB
    have hndB2 : (tube.bodies.map Body.id).Nodup := hndB
    cases la with
    | none =>
      cases lb with
      | none =>
        have hc1 : w.constraints = X ++ tube.constraints := by
          rw [hwc]
          simp [ownCons]
        have hfT : ∀ c ∈ tube.constraints, ∀ x ∈ X, x.id ≠ c.id := by
          intro c hc x hx
          exact hfC c (by simp [ownCons, hc]) x hx
        have hndT : (tube.constraints.map CCon.id).Nodup := by
          have h2 : ((tube.constraints ++ [] ++ []).map CCon.id).Nodup := by
            simpa [ownCons] using hndC
          simpa using h2
        show tube.bodies.foldl _ (tube.constraints.foldl _ w) = _
        rw [foldl_removeConstraints tube.constraints X w hc1 hndT hfT,
          foldl_removeBodies tube.bodies Y
            { bodies := w.bodies, constraints := X } hwb2 hndB2 hfB2]
      | some cB =>
        have hnd0 : ((tube.constraints ++ [cB]).map CCon.id).Nodup := by
          have h2 : ((tube.constraints ++ [] ++ [cB]).map CCon.id).Nodup := by
            simpa [ownCons] using hndC
          simpa using h2
        rw [List.map_append] at hnd0
        obtain ⟨hndT, _, hdisj⟩ := List.nodup_append.mp hnd0
        have h1 : w.constraints = (X ++ tube.constraints) ++ cB :: [] := by
          rw [hwc]
          simp [ownCons, List.append_assoc]
        have hX1 : ∀ x ∈ X ++ tube.constraints, x.id ≠ cB.id := by
          intro x hx
          rcases List.mem_append.mp hx with h | h
          · exact hfC cB (by simp [ownCons]) x h
          · intro he
            exact hdisj (List.mem_map_of_mem CCon.id h) (by rw [he]; simp)
        have hc1 : w.removeConstraintId cB.id =
            { bodies := w.bodies, constraints := (X ++ tube.constraints) ++ [] } :=
          removeCon_unique w cB (X ++ tube.constraints) [] h1 hX1
        have hfT : ∀ c ∈ tube.constraints, ∀ x ∈ X, x.id ≠ c.id := by
          intro c hc x hx
          exact hfC c (by simp [ownCons, hc]) x hx
        show tube.bodies.foldl _
          (tube.constraints.foldl _ (w.removeConstraintId cB.id)) = _
        rw [hc1,
          foldl_removeConstraints tube.constraints X
            { bodies := w.bodies, constraints := (X ++ tube.constraints) ++ [] }
            (List.append_nil _) hndT hfT,
          foldl_removeBodies tube.bodies Y
            { bodies := w.bodies, constraints := X } hwb2 hndB2 hfB2]
    | some cA =>
      cases lb with
      | none =>
        have hnd0 : ((tube.constraints ++ [cA]).map CCon.id).Nodup := by
          have h2 : ((tube.constraints ++ [cA] ++ []).map CCon.id).Nodup := by
            simpa [ownCons] using hndC
          simpa using h2
        rw [List.map_append] at hnd0
        obtain ⟨hndT, _, hdisj⟩ := List.nodup_append.mp hnd0
        have h1 : w.constraints = (X ++ tube.constraints) ++ cA :: [] := by
          rw [hwc]
          simp [ownCons, List.append_assoc]
        have hX1 : ∀ x ∈ X ++ tube.constraints, x.id ≠ cA.id := by
          intro x hx
          rcases List.mem_append.mp hx with h | h
          · exact hfC cA (by simp [ownCons]) x h
          · intro he
            exact hdisj (List.mem_map_of_mem CCon.id h) (by rw [he]; simp)
        have hc1 : w.removeConstraintId cA.id =
            { bodies := w.bodies, constraints := (X ++ tube.constraints) ++ [] } :=
          removeCon_unique w cA (X ++ tube.constraints) [] h1 hX1
        have hfT : ∀ c ∈ tube.constraints, ∀ x ∈ X, x.id ≠ c.id := by
          intro c hc x hx
          exact hfC c (by simp [ownCons, hc]) x hx
        show tube.bodies.foldl _
          (tube.constraints.foldl _ (w.removeConstraintId cA.id)) = _
        rw [hc1,
          foldl_removeConstraints tube.constraints X
            { bodies := w.bodies, constraints := (X ++ tube.constraints) ++ [] }
            (List.append_nil _) hndT hfT,
          foldl_removeBodies tube.bodies Y
            { bodies := w.bodies, constraints := X } hwb2 hndB2 hfB2]
      | some cB =>
        have hnd0 : (((tube.constraints ++ [cA]) ++ [cB]).map CCon.id).Nodup := by
          simpa [ownCons] using hndC
        rw [List.map_append, List.map_append] at hnd0
        obtain ⟨hnd1, _, hdisjB⟩ := List.nodup_append.mp hnd0
        obtain ⟨hndT, _, hdisjA⟩ := List.nodup_append.mp hnd1
        have h1 : w.constraints = (X ++ tube.constraints) ++ cA :: [cB] := by
          rw [hwc]
          simp [ownCons, List.append_assoc]
        have hX1 : ∀ x ∈ X ++ tube.constraints, x.id ≠ cA.id := by
          intro x hx
          rcases List.mem_append.mp hx with h | h
          · exact hfC cA (by simp [ownCons]) x h
          · intro he
            exact hdisjA (List.mem_map_of_mem CCon.id h) (by rw [he]; simp)
        have hc1 : w.removeConstraintId cA.id =
            { bodies := w.bodies, constraints := (X ++ tube.constraints) ++ [cB] } :=
          removeCon_unique w cA (X ++ tube.constraints) [cB] h1 hX1
        have hX2 : ∀ x ∈ X ++ tube.constraints, x.id ≠ cB.id := by
          intro x hx
          rcases List.mem_append.mp hx with h | h
          · exact hfC cB (by simp [ownCons]) x h
          · intro he
            have hmem1 : x.id ∈ List.map CCon.id tube.constraints ++ List.map CCon.id [cA] := by
              rw [List.mem_append]
              exact Or.inl (List.mem_map_of_mem CCon.id h)
            exact hdisjB hmem1 (by rw [he]; simp)
        have hc2 : (World.mk w.bodies
              ((X ++ tube.constraints) ++ [cB])).removeConstraintId cB.id =
            { bodies := w.bodies, constraints := (X ++ tube.constraints) ++ [] } :=
          removeCon_unique _ cB (X ++ tube.constraints) [] rfl hX2
        have hfT : ∀ c ∈ tube.constraints, ∀ x ∈ X, x.id ≠ c.id := by
          intro c hc x hx
          exact hfC c (by simp [ownCons, hc]) x hx
        show tube.bodies.foldl _
          (tube.constraints.foldl _
            ((w.removeConstraintId cA.id).removeConstraintId cB.id)) = _
        rw [hc1, hc2,
          foldl_removeConstraints tube.constraints X
            { bodies := w.bodies, constraints := (X ++ tube.constraints) ++ [] }
            (List.append_nil _) hndT hfT,
          foldl_removeBodies tube.bodies Y
            { bodies := w.bodies, constraints := X } hwb2 hndB2 hfB2]

/-- `clear`'s pop-and-removeFrom loop over the tracked constraints (reverse
creation order) removes exactly their accumulated engine footprint. -/
theorem clear_fold_reversal : ∀ (rs : List RigConstraint) (w : World)
    (X : List CCon) (Y : List Body),
    w.constraints = X ++ rs.bind ownCons →
    w.bodies = Y ++ rs.bind ownBods →
    ((rs.bind ownCons).map CCon.id).Nodup →
    ((rs.bind ownBods).map Body.id).Nodup →
    (∀ c ∈ rs.bind ownCons, ∀ x ∈ X, x.id ≠ c.id) →
    (∀ b ∈ rs.bind ownBods, ∀ y ∈ Y, y.id ≠ b.id) →
    rs.reverse.foldl (fun w c => c.removeFrom w) w = { bodies := Y, constraints := X }
  | [], w, X, Y, hwc, hwb, _, _, _, _ => by
    obtain ⟨wb, wc⟩ := w
    have hc2 : wc = X := by
      have h2 : wc = X ++ ([] : List RigConstraint).bind ownCons := hwc
      rw [show ([] : List RigConstraint).bind ownCons = [] from rfl, List.append_nil] at h2
      exact h2
    have hb2 : wb = Y := by
      have h2 : wb = Y ++ ([] : List RigConstraint).bind ownBods := hwb
      rw [show ([] : List RigConstraint).bind ownBods = [] from rfl, List.append_nil] at h2
      exact h2
    show World.mk wb wc = _
    rw [hc2, hb2]
  | r :: rest, w, X, Y, hwc, hwb, hndC, hndB, hfC, hfB => by
    have hbindC : (r :: rest).bind ownCons = ownCons r ++ rest.bind ownCons := rfl
    have hbindB : (r :: rest).bind ownBods = ownBods r ++ rest.bind ownBods := rfl
    rw [hbindC] at hwc hndC hfC
    rw [hbindB] at hwb hndB hfB
    rw [List.map_append] at hndC hndB
    obtain ⟨hndCr, hndCrest, hdisjC⟩ := List.nodup_append.mp hndC
    obtain ⟨hndBr, hndBrest, hdisjB⟩ := List.nodup_append.mp hndB
    have hIH := clear_fold_reversal rest w (X ++ ownCons r) (Y ++ ownBods r)
      (by rw [hwc, List.append_assoc])
      (by rw [hwb, List.append_assoc])
      hndCrest
      hndBrest
      (by
        intro c hc x hx
        rcases List.mem_append.mp hx with h | h
        · exact hfC c (List.mem_append.mpr (Or.inr hc)) x h
        · intro he
          exact hdisjC (List.mem_map_of_mem CCon.id h)
            (by rw [he]; exact List.mem_map_of_mem CCon.id hc))
      (by
        intro b hb y hy
        rcases List.mem_append.mp hy with h | h
        · exact hfB b (List.mem_append.mpr (Or.inr hb)) y h
        · intro he
          exact hdisjB (List.mem_map_of_mem Body.id h)
            (by rw [he]; exact List.mem_map_of_mem Body.id hb))
    rw [List.reverse_cons, List.foldl_append, hIH]
    exact removeFrom_block r { bodies := Y ++ ownBods r, constraints := X ++ ownCons r }
      X Y rfl rfl hndCr hndBr
      (fun c hc x hx => hfC c (List.mem_append.mpr (Or.inl hc)) x hx)
      (fun b hb y hy => hfB b (List.mem_append.mpr (Or.inl hb)) y hy)

theorem foldl_removeBody_entries : ∀ (ents : List Obj2BodEntry) (w : World),
    ents.foldl (fun w e => w.removeBodyId e.body.id) w =
      (ents.map Obj2BodEntry.body).foldl (fun w b => w.removeBodyId b.id) w
  | [], _ => rfl
  | e :: rest, w => foldl_removeBody_entries rest (w.removeBodyId e.body.id)

/-- C1 (amended): from a fresh session (empty node→body index and constraint
list, engine ids below the counter), a successful `rigScene` followed by
`clear()` restores the physics world exactly — every engine registration the
rig made (collider bodies, joints, cable chains and their locks) is reversed
— and empties the index and the tracked-constraint list.  (The custom
constraints map is the exception the counterexample records: its entries are
not engine registrations and survive `clear`.) -/
theorem rig_clear_restores (ctx : TRS) (st : RigState) (scene : Object3D)
    (hOb : st.obj2bod = []) (hCs : st.constraints = [])
    (hBb : ∀ b ∈ st.world.bodies, b.id < st.nextId)
    (hBc : ∀ c ∈ st.world.constraints, c.id < st.nextId) :
    ∀ pr : Object3D × RigState, rigScene ctx st scene = .ok pr →
      (clear pr.2).world = st.world ∧ (clear pr.2).obj2bod = [] ∧
      (clear pr.2).constraints = [] := by
  intro pr h
  have hunf : rigScene ctx st scene =
      match rigPass2 ctx [] (rigPass1 ctx [] st scene).2 (rigPass1 ctx [] st scene).1 with
      | .error e => .error e
      | .ok st2 => .ok ((rigPass1 ctx [] st scene).1, st2) := rfl
  rw [hunf] at h
  cases hs : rigPass2 ctx [] (rigPass1 ctx [] st scene).2 (rigPass1 ctx [] st scene).1 with
  | error e =>
    rw [hs] at h
    exact absurd h (by simp)
  | ok st2 =>
    rw [hs] at h
    obtain rfl := Except.ok.inj h
    have hb1 : ∀ e ∈ st.obj2bod, e.body.id < st.nextId := by
      rw [hOb]
      simp
    obtain ⟨hInv1, _, ents, hOb1, hWb1, hBnd1, hNd1, _, _⟩ :=
      rigPass1_spec scene ctx [] st hb1 hBb
    obtain ⟨hOb2, hMono2, newCs, hCs2, hWc2, hWb2, hCbnd, hBbnd, hCnd, hBnd⟩ :=
      rigPass2_post (rigPass1 ctx [] st scene).1 ctx [] (rigPass1 ctx [] st scene).2 st2 hs
    have hcons : st2.constraints = newCs := by
      rw [hCs2, hInv1.constraints_eq, hCs, List.nil_append]
    have hob : st2.obj2bod = ents := by
      rw [hOb2, hOb1, hOb, List.nil_append]
    have hwc : st2.world.constraints = st.world.constraints ++ newCs.bind ownCons := by
      rw [hWc2, hInv1.wcons_eq]
    have hwb : st2.world.bodies =
        (st.world.bodies ++ ents.map Obj2BodEntry.body) ++ newCs.bind ownBods := by
      rw [hWb2, hWb1]
    have hmono1 := hInv1.nextId_mono
    have hW1 : st2.constraints.reverse.foldl (fun w c => c.removeFrom w) st2.world =
        { bodies := st.world.bodies ++ ents.map Obj2BodEntry.body,
          constraints := st.world.constraints } := by
      rw [hcons]
      refine clear_fold_reversal newCs st2.world st.world.constraints
        (st.world.bodies ++ ents.map Obj2BodEntry.body) hwc hwb hCnd hBnd ?_ ?_
      · intro c hc x hx
        have h1 := hBc x hx
        have h2 := (hCbnd c hc).1
        omega
      · intro b hb y hy
        have h2 := (hBbnd b hb).1
        rcases List.mem_append.mp hy with hyy | hyy
        · have := hBb y hyy
          omega
        · obtain ⟨e, he, rfl⟩ := List.mem_map.mp hyy
          have := (hBnd1 e he).2
          omega
    refine ⟨?_, rfl, rfl⟩
    show st2.obj2bod.foldl (fun w e => w.removeBodyId e.body.id)
      (st2.constraints.reverse.foldl (fun w c => c.removeFrom w) st2.world) = st.world
    rw [hW1, hob, foldl_removeBody_entries,
      foldl_removeBodies (ents.map Obj2BodEntry.body) st.world.bodies
        { bodies := st.world.bodies ++ ents.map Obj2BodEntry.body,
          constraints := st.world.constraints } rfl
        (by rw [List.map_map]; exact hNd1)
        (by
          intro b hb y hy
          obtain ⟨e, he, rfl⟩ := List.mem_map.mp hb
          have h1 := (hBnd1 e he).1
          have h2 := hBb y hy
          omega)]

/-- The value of a successful `Except`, with a fallback for the error case. -/
def okOr (d : α) : Except ε α → α
  | .ok a => a
  | .error _ => d

/-- The C1 witness scene: a box and a sphere collider, a distance joint
between them, a sync node driven by the box, a cable with two anchor
children locked to the box, and a custom node using the registered factory. -/
def c1Scene : Object3D :=
  .mk "root" {} vzero qid ⟨1, 1, 1⟩ true
    [.mk "A" { name := some "A", threejscannones_type := some (.str "box") }
       ⟨1, 0, 0⟩ qid ⟨1, 1, 1⟩ true [],
     .mk "B" { name := some "B", threejscannones_type := some (.str "sphere") }
       ⟨3, 0, 0⟩ qid ⟨1, 1, 1⟩ true [],
     .mk "J" { threejscannones_type := some (.str "dist"), threejscannones_A := some "A"
               threejscannones_B := some "B" } vzero qid ⟨1, 1, 1⟩ true [],
     .mk "S" { threejscannones_type := some (.str "sync")
               threejscannones_syncSource := some "A" } vzero qid ⟨1, 1, 1⟩ true [],
     .mk "C" { threejscannones_type := some (.str "tube"), threejscannones_A := some "A" }
       vzero qid ⟨1, 1, 1⟩ true
       [.mk "c0" {} ⟨0, 0, 0⟩ qid ⟨1, 1, 1⟩ true [],
        .mk "c1" {} ⟨0, 0, 5⟩ qid ⟨1, 1, 1⟩ true []],
     .mk "K" { name := some "K", threejscannones_type := some (.str "custom")
               threejscannones_customId := some "glue" } vzero qid ⟨1, 1, 1⟩ true []]

theorem rig_clear_restores_witness :
    (stC6.obj2bod = [] ∧ stC6.constraints = [] ∧
     rigScene idTRS stC6 c1Scene =
       .ok (okOr (c1Scene, stC6) (rigScene idTRS stC6 c1Scene))) ∧
    ((clear (okOr (c1Scene, stC6) (rigScene idTRS stC6 c1Scene)).2).world = stC6.world ∧
     (clear (okOr (c1Scene, stC6) (rigScene idTRS stC6 c1Scene)).2).obj2bod = [] ∧
     (clear (okOr (c1Scene, stC6) (rigScene idTRS stC6 c1Scene)).2).constraints = []) :=
  ⟨⟨rfl, rfl, rfl⟩,
   rig_clear_restores idTRS stC6 c1Scene rfl rfl (by simp [stC6]) (by simp [stC6])
     (okOr (c1Scene, stC6) (rigScene idTRS stC6 c1Scene)) rfl⟩

/-- C1 counterexample: a custom-constraint node rigs successfully, yet the
session constraint list stays empty — the constraint the factory returned is
tracked only in the custom-constraints map — and after `clear()` that map
still holds it: not every per-rig index is emptied, and the custom entry has
no `removeFrom` pass. -/
theorem custom_constraint_untracked :
    rigScene idTRS stC6 (.mk "c" udC6 vzero qid ⟨1, 1, 1⟩ true []) =
      .ok (.mk "c" (normalizeUserData udC6) vzero qid ⟨1, 1, 1⟩ true [],
        { stC6 with customConstraints := [(some "C", ⟨7⟩)] }) ∧
    ({ stC6 with customConstraints := [(some "C", ⟨7⟩)] } : RigState).constraints = [] ∧
    getCustomConstraint { stC6 with customConstraints := [(some "C", ⟨7⟩)] } "C" =
      some ⟨7⟩ ∧
    getCustomConstraint (clear { stC6 with customConstraints := [(some "C", ⟨7⟩)] }) "C" =
      some ⟨7⟩ ∧
    (clear { stC6 with customConstraints := [(some "C", ⟨7⟩)] }).customConstraints ≠ [] := by
  refine ⟨rfl, rfl, rfl, rfl, ?_⟩
  show ([(some "C", (⟨7⟩ : IConstraint))] : List (Option String × IConstraint)) ≠ []
  simp

end ThreeCannonRigger
